import Mathlib

/-!
Verification development for the cpu_emulator repository.

The definitions below are a shallow embedding of the Python sources in
`src/cpu_emulator/core/` (flags.py, alu.py, memory.py, registers.py,
instruction_set.py, decoder.py, cpu.py).  Machine words are modelled as
`Nat` with explicit masking; Python's unbounded signed integers appear as
`Int` where the source can produce negative intermediate values.  Raising
an exception is modelled by an error value; where the source can mutate
state before raising, functions return the state as it stands at the
raise point.
-/

namespace CpuEmu

/-! ## Flags (flags.py) -/

/-- The five condition flags Z, S, C, O, P.  The source stores them in a
string-keyed dictionary; every access in the core uses one of the five
valid names, so the embedding uses one field per flag. -/
structure Flags where
  z : Nat
  s : Nat
  c : Nat
  o : Nat
  p : Nat
deriving DecidableEq

/-- Flags are created zeroed (Flags.__init__). -/
def Flags.init : Flags := ⟨0, 0, 0, 0, 0⟩

/-- The bit-counting loop of Flags._calculate_parity:
`while value: count += value & 1; value >>= 1`. -/
def bitCount (value : Nat) : Nat :=
  if value = 0 then 0 else (value &&& 1) + bitCount (value >>> 1)
termination_by value
decreasing_by
  simp only [Nat.shiftRight_eq_div_pow, pow_one]
  omega

/-- Flags._calculate_parity: 1 for an even number of set bits, else 0. -/
def calculateParity (value : Nat) : Nat :=
  if bitCount value % 2 = 0 then 1 else 0

/-- Flags.basic_update: Z from the masked result, S from bit 31, P from
the parity of the low 8 bits. -/
def Flags.basicUpdate (f : Flags) (opResult : Nat) : Flags :=
  let r := opResult &&& 0xFFFFFFFF
  { f with
    z := if r = 0 then 1 else 0
    s := if r &&& 0x80000000 ≠ 0 then 1 else 0
    p := calculateParity (r &&& 0xFF) }

/-- The pattern `x if x < 0x80000000 else x - 0x100000000` applied to a
masked 32-bit value. -/
def toSigned (x : Nat) : Int :=
  if x < 0x80000000 then (x : Int) else (x : Int) - 0x100000000

/-- The same reinterpretation pattern applied to an arbitrary Python int
(the `result` parameter of Flags._update_flags_for_sub is not masked by
that function and is negative on the CMP path). -/
def toSignedInt (x : Int) : Int :=
  if x < 0x80000000 then x else x - 0x100000000

/-- Flags._update_flags_for_add. -/
def Flags.updateFlagsForAdd (f : Flags) (a b result : Nat) : Flags :=
  let unsignedSum := a + b
  let f := { f with c := if unsignedSum > 0xFFFFFFFF then 1 else 0 }
  let aSigned := toSigned a
  let bSigned := toSigned b
  let resultSigned := toSigned result
  let sameSignOperands := (0 ≤ aSigned) ↔ (0 ≤ bSigned)
  let differentSignResult := ¬ ((0 ≤ aSigned) ↔ (0 ≤ resultSigned))
  { f with o := if sameSignOperands ∧ differentSignResult then 1 else 0 }

/-- Flags._update_flags_for_sub.  The `result` parameter is an `Int`
because arithmetic_update passes the raw difference `a - b` on the CMP
path, which can be negative. -/
def Flags.updateFlagsForSub (f : Flags) (a b : Nat) (result : Int) : Flags :=
  let f := { f with c := if a < b then 1 else 0 }
  let aSigned := toSigned a
  let bSigned := toSigned b
  let resultSigned := toSignedInt result
  let differentSigns := ¬ ((0 ≤ aSigned) ↔ (0 ≤ bSigned))
  let wrongResult := ¬ ((0 ≤ aSigned) ↔ (0 ≤ resultSigned))
  { f with o := if differentSigns ∧ wrongResult then 1 else 0 }

/-- The `operation` string argument of Flags.arithmetic_update. -/
inductive AOp | ADD | SUB | CMP
deriving DecidableEq

/-- Flags.arithmetic_update.  Note the CMP branch of the source passes the
recomputed raw difference `a - b` (not the masked `result`) to
_update_flags_for_sub. -/
def Flags.arithmeticUpdate (f : Flags) (a b result : Nat) (operation : AOp) : Flags :=
  let a := a &&& 0xFFFFFFFF
  let b := b &&& 0xFFFFFFFF
  let result := result &&& 0xFFFFFFFF
  let f := f.basicUpdate result
  match operation with
  | .ADD => f.updateFlagsForAdd a b result
  | .SUB => f.updateFlagsForSub a b (result : Int)
  | .CMP => f.updateFlagsForSub a b ((a : Int) - (b : Int))

/-- Flags.logical_update. -/
def Flags.logicalUpdate (f : Flags) (result : Nat) : Flags :=
  let result := result &&& 0xFFFFFFFF
  let f := f.basicUpdate result
  { f with c := 0, o := 0 }

/-- Flags.shift_update. -/
def Flags.shiftUpdate (f : Flags) (result carryOut : Nat) : Flags :=
  let result := result &&& 0xFFFFFFFF
  let f := f.basicUpdate result
  { f with c := carryOut &&& 1, o := 0 }

/-- Flags.shift_left_update. -/
def Flags.shiftLeftUpdate (f : Flags) (original count result : Nat) : Flags :=
  if count = 0 then f.basicUpdate result
  else
    let carryOut := if count ≤ 32 then (original >>> (32 - count)) &&& 1 else 0
    f.shiftUpdate result carryOut

/-- Flags.shift_right_update. -/
def Flags.shiftRightUpdate (f : Flags) (original count result : Nat) : Flags :=
  if count = 0 then f.basicUpdate result
  else
    let carryOut := if count > 0 then (original >>> (count - 1)) &&& 1 else 0
    f.shiftUpdate result carryOut

/-- Flags.rotate_update (delegates to shift_update). -/
def Flags.rotateUpdate (f : Flags) (result carryOut : Nat) : Flags :=
  f.shiftUpdate result carryOut

/-- Flags.multiplication_update. -/
def Flags.multiplicationUpdate (f : Flags) (result fullResult : Nat) : Flags :=
  let result := result &&& 0xFFFFFFFF
  let f := f.basicUpdate result
  { f with c := if fullResult > 0xFFFFFFFF then 1 else 0, o := 0 }

/-- Flags.division_update. -/
def Flags.divisionUpdate (f : Flags) (quotient : Nat) : Flags :=
  let quotient := quotient &&& 0xFFFFFFFF
  let f := f.basicUpdate quotient
  { f with c := 0, o := 0 }

/-! ## ALU (alu.py)

The Python ALU mutates the shared Flags object; the embedding passes the
flag state explicitly and returns the updated flags with the result. -/

/-- Python's `x & 0xFFFFFFFF` on a possibly negative int: for any `x`,
this equals `x` modulo 2^32 (a non-negative value). -/
def intMask32 (x : Int) : Nat := (x % (0x100000000 : Int)).toNat

/-- ALU.add. -/
def ALU.add (a b : Nat) (f : Flags) : Nat × Flags :=
  let a := a &&& 0xFFFFFFFF
  let b := b &&& 0xFFFFFFFF
  let result := (a + b) &&& 0xFFFFFFFF
  (result, f.arithmeticUpdate a b result .ADD)

/-- ALU.sub.  The Python difference `a - b` can be negative before the
mask, hence the Int detour. -/
def ALU.sub (a b : Nat) (f : Flags) : Nat × Flags :=
  let a := a &&& 0xFFFFFFFF
  let b := b &&& 0xFFFFFFFF
  let result := intMask32 ((a : Int) - (b : Int))
  (result, f.arithmeticUpdate a b result .SUB)

/-- ALU.mul. -/
def ALU.mul (a b : Nat) (f : Flags) : Nat × Flags :=
  let a := a &&& 0xFFFFFFFF
  let b := b &&& 0xFFFFFFFF
  let fullResult := a * b
  let result := fullResult &&& 0xFFFFFFFF
  (result, f.multiplicationUpdate result fullResult)

/-- ALU.div.  `none` models the ZeroDivisionError raise, which happens
before the operands are masked and before any flag update; the flags
component of the failure case is therefore the untouched input flags.
The inner check covers Python's `a // b` raising when the 32-bit-masked
divisor is zero even though the raw argument was not. -/
def ALU.div (a b : Nat) (f : Flags) : Option (Nat × Nat) × Flags :=
  if b = 0 then (none, f)
  else
    let a := a &&& 0xFFFFFFFF
    let b := b &&& 0xFFFFFFFF
    if b = 0 then (none, f)
    else
      let quotient := (a / b) &&& 0xFFFFFFFF
      let remainder := (a % b) &&& 0xFFFFFFFF
      (some (quotient, remainder), f.divisionUpdate quotient)

/-- ALU.compare: a subtraction whose numeric result is not returned; only
the flag update (kind CMP) remains. -/
def ALU.compare (a b : Nat) (f : Flags) : Flags :=
  let a := a &&& 0xFFFFFFFF
  let b := b &&& 0xFFFFFFFF
  let result := intMask32 ((a : Int) - (b : Int))
  f.arithmeticUpdate a b result .CMP

/-- ALU.logical_and. -/
def ALU.logicalAnd (a b : Nat) (f : Flags) : Nat × Flags :=
  let a := a &&& 0xFFFFFFFF
  let b := b &&& 0xFFFFFFFF
  let result := (a &&& b) &&& 0xFFFFFFFF
  (result, f.logicalUpdate result)

/-- ALU.logical_or. -/
def ALU.logicalOr (a b : Nat) (f : Flags) : Nat × Flags :=
  let a := a &&& 0xFFFFFFFF
  let b := b &&& 0xFFFFFFFF
  let result := (a ||| b) &&& 0xFFFFFFFF
  (result, f.logicalUpdate result)

/-- ALU.logical_xor. -/
def ALU.logicalXor (a b : Nat) (f : Flags) : Nat × Flags :=
  let a := a &&& 0xFFFFFFFF
  let b := b &&& 0xFFFFFFFF
  let result := (a ^^^ b) &&& 0xFFFFFFFF
  (result, f.logicalUpdate result)

/-- ALU.logical_not: Python `~a & 0xFFFFFFFF` on `0 ≤ a < 2^32` is the
bitwise complement within 32 bits. -/
def ALU.logicalNot (a : Nat) (f : Flags) : Nat × Flags :=
  let a := a &&& 0xFFFFFFFF
  let result := intMask32 (-(a : Int) - 1)
  (result, f.logicalUpdate result)

/-- ALU.shift_left. -/
def ALU.shiftLeft (a count : Nat) (f : Flags) : Nat × Flags :=
  let a := a &&& 0xFFFFFFFF
  let count := count &&& 0x1F
  let result := (a <<< count) &&& 0xFFFFFFFF
  (result, f.shiftLeftUpdate a count result)

/-- ALU.shift_right. -/
def ALU.shiftRight (a count : Nat) (f : Flags) : Nat × Flags :=
  let a := a &&& 0xFFFFFFFF
  let count := count &&& 0x1F
  let result := (a >>> count) &&& 0xFFFFFFFF
  (result, f.shiftRightUpdate a count result)

/-- ALU.arithmetic_shift_right.  Python's `>>` on a signed int is a floor
division by the power of two, hence `Int.fdiv`. -/
def ALU.arithmeticShiftRight (a count : Nat) (f : Flags) : Nat × Flags :=
  let a := a &&& 0xFFFFFFFF
  let count := count &&& 0x1F
  let signedA := toSigned a
  let result := intMask32 (Int.fdiv signedA (2 ^ count))
  (result, f.shiftRightUpdate a count result)

/-- ALU.rotate_left.  A (masked) count of zero returns `a` with no flag
update at all. -/
def ALU.rotateLeft (a count : Nat) (f : Flags) : Nat × Flags :=
  let a := a &&& 0xFFFFFFFF
  let count := count &&& 0x1F
  if count = 0 then (a, f)
  else
    let result := ((a <<< count) ||| (a >>> (32 - count))) &&& 0xFFFFFFFF
    let carryOut := result &&& 1
    (result, f.rotateUpdate result carryOut)

/-- ALU.rotate_right.  Same zero-count no-op quirk as rotate_left. -/
def ALU.rotateRight (a count : Nat) (f : Flags) : Nat × Flags :=
  let a := a &&& 0xFFFFFFFF
  let count := count &&& 0x1F
  if count = 0 then (a, f)
  else
    let result := ((a >>> count) ||| (a <<< (32 - count))) &&& 0xFFFFFFFF
    let carryOut := (result >>> 31) &&& 1
    (result, f.rotateUpdate result carryOut)

/-- ALU.add_with_carry: result = a + b + C_in mod 2^32; basic_update only,
then the Carry flag is set explicitly from the full sum. -/
def ALU.addWithCarry (a b : Nat) (f : Flags) : Nat × Flags :=
  let a := a &&& 0xFFFFFFFF
  let b := b &&& 0xFFFFFFFF
  let carryIn := f.c
  let fullResult := a + b + carryIn
  let result := fullResult &&& 0xFFFFFFFF
  let f := f.basicUpdate result
  let f := { f with c := if fullResult > 0xFFFFFFFF then 1 else 0 }
  (result, f)

/-- ALU.sub_with_carry: full result a - b - C_in as a Python int (can be
negative), masked to 32 bits; basic_update, then Carry set from the sign
of the full result. -/
def ALU.subWithCarry (a b : Nat) (f : Flags) : Nat × Flags :=
  let a := a &&& 0xFFFFFFFF
  let b := b &&& 0xFFFFFFFF
  let carryIn := f.c
  let fullResult : Int := (a : Int) - (b : Int) - (carryIn : Int)
  let result := intMask32 fullResult
  let f := f.basicUpdate result
  let f := { f with c := if fullResult < 0 then 1 else 0 }
  (result, f)

/-- ALU.clear_carry. -/
def ALU.clearCarry (f : Flags) : Flags := { f with c := 0 }

/-- ALU.set_carry. -/
def ALU.setCarry (f : Flags) : Flags := { f with c := 1 }

/-! ## Error values

The source raises distinct exception classes (BadAddressException,
RegisterException, ValueError for an unknown opcode, ZeroDivisionError,
InvalidInstructionException, TypeError when a missing operand field
reaches an access).  The embedding collects them in one inductive. -/

inductive Err
  | badAddress
  | unknownRegister
  | unknownOpcode
  | invalidRegister
  | invalidInstruction
  | divisionByZero
  | typeErr
deriving DecidableEq

/-! ## Memory (memory.py) -/

/-- Memory: a size and a flat byte array (`bytearray(size)`). -/
structure Memory where
  size : Nat
  data : List Nat
deriving DecidableEq

/-- Memory.__init__. -/
def Memory.init (size : Nat) : Memory := ⟨size, List.replicate size 0⟩

/-- Memory._check_address_range (the source's default end_address is 0;
call sites pass it explicitly here). -/
def Memory.checkAddressRange (m : Memory) (address endAddress : Nat) : Option Err :=
  if ¬ address < m.size then some .badAddress
  else if ¬ endAddress < m.size then some .badAddress
  else none

/-- Memory.read_byte. -/
def Memory.readByte (m : Memory) (address : Nat) : Except Err Nat :=
  match m.checkAddressRange address 0 with
  | some e => .error e
  | none => .ok (m.data.getD address 0)

/-- Memory.write_byte.  On failure the memory is returned as it stood at
the raise point (the range check precedes the store). -/
def Memory.writeByte (m : Memory) (address value : Nat) : Memory × Option Err :=
  match m.checkAddressRange address 0 with
  | some e => (m, some e)
  | none => ({ m with data := m.data.set address (value &&& 0xFF) }, none)

/-- Memory._check_word_address. -/
def Memory.checkWordAddress (m : Memory) (address : Nat) : Option Err :=
  match m.checkAddressRange address (address + 3) with
  | some e => some e
  | none => if address % 4 ≠ 0 then some .badAddress else none

/-- Memory.read_word: four byte reads assembled little-endian. -/
def Memory.readWord (m : Memory) (address : Nat) : Except Err Nat :=
  match m.checkWordAddress address with
  | some e => .error e
  | none =>
    match m.readByte address with
    | .error e => .error e
    | .ok b0 =>
      match m.readByte (address + 1) with
      | .error e => .error e
      | .ok b1 =>
        match m.readByte (address + 2) with
        | .error e => .error e
        | .ok b2 =>
          match m.readByte (address + 3) with
          | .error e => .error e
          | .ok b3 => .ok ((b3 <<< 24) ||| (b2 <<< 16) ||| (b1 <<< 8) ||| b0)

/-- Memory.write_word: the word check, then four sequential byte writes;
the memory state is threaded through so that any failure returns the
bytes written so far (the checks make partial writes unreachable, which
theorem `writeWord_failure_frame` establishes). -/
def Memory.writeWord (m : Memory) (address value : Nat) : Memory × Option Err :=
  match m.checkWordAddress address with
  | some e => (m, some e)
  | none =>
    match m.writeByte address ((value >>> 0) &&& 0xFF) with
    | (m0, some e) => (m0, some e)
    | (m0, none) =>
      match m0.writeByte (address + 1) ((value >>> 8) &&& 0xFF) with
      | (m1, some e) => (m1, some e)
      | (m1, none) =>
        match m1.writeByte (address + 2) ((value >>> 16) &&& 0xFF) with
        | (m2, some e) => (m2, some e)
        | (m2, none) =>
          match m2.writeByte (address + 3) ((value >>> 24) &&& 0xFF) with
          | (m3, some e) => (m3, some e)
          | (m3, none) => (m3, none)

/-! ## Registers (registers.py) -/

/-- Register file: GPR array, its length, and the PC/IR/SP specials. -/
structure Registers where
  gpr : List Nat
  gprCount : Nat
  pc : Nat
  ir : Nat
  sp : Nat
deriving DecidableEq

/-- Registers.__init__. -/
def Registers.init (gprCount : Nat) : Registers :=
  ⟨List.replicate gprCount 0, gprCount, 0, 0, 0⟩

/-- Registers.get via _operate_register: index 8 aliases SP, indices below
gpr_count hit the GPR array, 0x10/0x11/0x12 are the diagnostic aliases of
PC/IR/SP, anything else raises. -/
def Registers.get (r : Registers) (regNum : Nat) : Except Err Nat :=
  if regNum = 8 then .ok r.sp
  else if regNum < r.gprCount then .ok (r.gpr.getD regNum 0)
  else if regNum = 0x10 then .ok r.pc
  else if regNum = 0x11 then .ok r.ir
  else if regNum = 0x12 then .ok r.sp
  else .error .unknownRegister

/-- Registers.set: the value is masked to 32 bits, then the same index
dispatch as `get`. -/
def Registers.set (r : Registers) (regNum value : Nat) : Except Err Registers :=
  let value := value &&& 0xFFFFFFFF
  if regNum = 8 then .ok { r with sp := value }
  else if regNum < r.gprCount then .ok { r with gpr := r.gpr.set regNum value }
  else if regNum = 0x10 then .ok { r with pc := value }
  else if regNum = 0x11 then .ok { r with ir := value }
  else if regNum = 0x12 then .ok { r with sp := value }
  else .error .unknownRegister

/-! ## Instruction set (instruction_set.py) -/

/-- The OpCode enumeration. -/
inductive OpCode
  | NOP | HALT
  | MOV_REG | MOV_IMM | LOAD | STORE
  | ADD_REG | ADD_IMM | SUB_REG | SUB_IMM
  | MUL_REG | MUL_IMM | DIV_REG | DIV_IMM
  | AND_REG | AND_IMM | OR_REG | OR_IMM
  | XOR_REG | XOR_IMM | NOT
  | SHL_REG | SHL_IMM | SHR_REG | SHR_IMM | SAR_REG | SAR_IMM
  | CMP_REG | CMP_IMM
  | JMP | JZ | JNZ | JC | JNC | JS | JNS
deriving DecidableEq

/-- The numeric value of each opcode. -/
def OpCode.toNat : OpCode → Nat
  | .NOP => 0x00
  | .HALT => 0x01
  | .MOV_REG => 0x10
  | .MOV_IMM => 0x11
  | .LOAD => 0x12
  | .STORE => 0x13
  | .ADD_REG => 0x20
  | .ADD_IMM => 0x21
  | .SUB_REG => 0x22
  | .SUB_IMM => 0x23
  | .MUL_REG => 0x24
  | .MUL_IMM => 0x25
  | .DIV_REG => 0x26
  | .DIV_IMM => 0x27
  | .AND_REG => 0x30
  | .AND_IMM => 0x31
  | .OR_REG => 0x32
  | .OR_IMM => 0x33
  | .XOR_REG => 0x34
  | .XOR_IMM => 0x35
  | .NOT => 0x36
  | .SHL_REG => 0x40
  | .SHL_IMM => 0x41
  | .SHR_REG => 0x42
  | .SHR_IMM => 0x43
  | .SAR_REG => 0x44
  | .SAR_IMM => 0x45
  | .CMP_REG => 0x50
  | .CMP_IMM => 0x51
  | .JMP => 0x60
  | .JZ => 0x61
  | .JNZ => 0x62
  | .JC => 0x63
  | .JNC => 0x64
  | .JS => 0x65
  | .JNS => 0x66

/-- Python's `OpCode(value)` enum lookup: the inverse of `OpCode.toNat`,
failing on unknown values. -/
def opCodeOfNat (n : Nat) : Option OpCode :=
  match n with
  | 0x00 => some .NOP
  | 0x01 => some .HALT
  | 0x10 => some .MOV_REG
  | 0x11 => some .MOV_IMM
  | 0x12 => some .LOAD
  | 0x13 => some .STORE
  | 0x20 => some .ADD_REG
  | 0x21 => some .ADD_IMM
  | 0x22 => some .SUB_REG
  | 0x23 => some .SUB_IMM
  | 0x24 => some .MUL_REG
  | 0x25 => some .MUL_IMM
  | 0x26 => some .DIV_REG
  | 0x27 => some .DIV_IMM
  | 0x30 => some .AND_REG
  | 0x31 => some .AND_IMM
  | 0x32 => some .OR_REG
  | 0x33 => some .OR_IMM
  | 0x34 => some .XOR_REG
  | 0x35 => some .XOR_IMM
  | 0x36 => some .NOT
  | 0x40 => some .SHL_REG
  | 0x41 => some .SHL_IMM
  | 0x42 => some .SHR_REG
  | 0x43 => some .SHR_IMM
  | 0x44 => some .SAR_REG
  | 0x45 => some .SAR_IMM
  | 0x50 => some .CMP_REG
  | 0x51 => some .CMP_IMM
  | 0x60 => some .JMP
  | 0x61 => some .JZ
  | 0x62 => some .JNZ
  | 0x63 => some .JC
  | 0x64 => some .JNC
  | 0x65 => some .JS
  | 0x66 => some .JNS
  | _ => none

/-- The InstructionType enumeration (operand-shape classes).  The STACK
branches in decoder.py are dead code: InstructionType has no STACK member
and every opcode maps to one of these seven classes. -/
inductive InstructionType
  | NO_OPERANDS | REG_REG | REG_IMM | REG_UNARY | LOAD | STORE | JUMP
deriving DecidableEq

/-- get_instruction_type via the INSTRUCTION_FORMATS table (every opcode
is present in the table, so the dict-lookup default never fires). -/
def getInstructionType : OpCode → InstructionType
  | .NOP => .NO_OPERANDS
  | .HALT => .NO_OPERANDS
  | .MOV_REG => .REG_REG
  | .MOV_IMM => .REG_IMM
  | .LOAD => .LOAD
  | .STORE => .STORE
  | .ADD_REG => .REG_REG
  | .ADD_IMM => .REG_IMM
  | .SUB_REG => .REG_REG
  | .SUB_IMM => .REG_IMM
  | .MUL_REG => .REG_REG
  | .MUL_IMM => .REG_IMM
  | .DIV_REG => .REG_REG
  | .DIV_IMM => .REG_IMM
  | .AND_REG => .REG_REG
  | .AND_IMM => .REG_IMM
  | .OR_REG => .REG_REG
  | .OR_IMM => .REG_IMM
  | .XOR_REG => .REG_REG
  | .XOR_IMM => .REG_IMM
  | .NOT => .REG_UNARY
  | .SHL_REG => .REG_REG
  | .SHL_IMM => .REG_IMM
  | .SHR_REG => .REG_REG
  | .SHR_IMM => .REG_IMM
  | .SAR_REG => .REG_REG
  | .SAR_IMM => .REG_IMM
  | .CMP_REG => .REG_REG
  | .CMP_IMM => .REG_IMM
  | .JMP => .JUMP
  | .JZ => .JUMP
  | .JNZ => .JUMP
  | .JC => .JUMP
  | .JNC => .JUMP
  | .JS => .JUMP
  | .JNS => .JUMP

/-- The Instruction dataclass; fields not populated by the decoder stay
`none` (Python None). -/
structure Instruction where
  opcode : OpCode
  instructionType : InstructionType
  destReg : Option Nat
  sourceReg : Option Nat
  immediate : Option Nat
  address : Option Nat
deriving DecidableEq

/-! ## Decoder (decoder.py) -/

/-- InstructionDecoder._validate_register: valid register numbers are
0..8. -/
def validateRegister (regNum : Nat) : Bool := regNum ≤ 8

/-- InstructionDecoder._sign_extend_16_to_32. -/
def signExtend16To32 (value : Nat) : Nat :=
  if value &&& 0x8000 ≠ 0 then value ||| 0xFFFF0000 else value &&& 0x0000FFFF

/-- InstructionDecoder.decode. -/
def InstructionDecoder.decode (raw : Nat) : Except Err Instruction :=
  let opcodeValue := (raw >>> 24) &&& 0xFF
  let reg1 := (raw >>> 16) &&& 0xFF
  let operand := raw &&& 0xFFFF
  match opCodeOfNat opcodeValue with
  | none => .error .unknownOpcode
  | some opcode =>
    match getInstructionType opcode with
    | .NO_OPERANDS => .ok ⟨opcode, .NO_OPERANDS, none, none, none, none⟩
    | .REG_REG =>
      if ¬ validateRegister reg1 then .error .invalidRegister
      else
        let reg2 := operand &&& 0xFF
        if ¬ validateRegister reg2 then .error .invalidRegister
        else .ok ⟨opcode, .REG_REG, some reg1, some reg2, none, none⟩
    | .REG_IMM =>
      if ¬ validateRegister reg1 then .error .invalidRegister
      else .ok ⟨opcode, .REG_IMM, some reg1, none, some (signExtend16To32 operand), none⟩
    | .REG_UNARY =>
      if ¬ validateRegister reg1 then .error .invalidRegister
      else .ok ⟨opcode, .REG_UNARY, some reg1, none, none, none⟩
    | .LOAD =>
      if ¬ validateRegister reg1 then .error .invalidRegister
      else
        let reg2 := operand &&& 0xFF
        if ¬ validateRegister reg2 then .error .invalidRegister
        else .ok ⟨opcode, .LOAD, some reg1, some reg2, none, none⟩
    | .STORE =>
      if ¬ validateRegister reg1 then .error .invalidRegister
      else
        let reg2 := operand &&& 0xFF
        if ¬ validateRegister reg2 then .error .invalidRegister
        else .ok ⟨opcode, .STORE, some reg1, some reg2, none, none⟩
    | .JUMP => .ok ⟨opcode, .JUMP, none, none, none, some operand⟩

/-- InstructionDecoder.encode.  Python reads the operand fields directly
and would raise a TypeError on a missing (None) field; encode is used on
decoder outputs and well-formed records, where every accessed field is
populated, so the embedding reads them with a default. -/
def InstructionDecoder.encode (i : Instruction) : Nat :=
  let raw := (i.opcode.toNat &&& 0xFF) <<< 24
  match i.instructionType with
  | .NO_OPERANDS => raw
  | .REG_REG => (raw ||| ((i.destReg.getD 0 &&& 0xFF) <<< 16)) ||| (i.sourceReg.getD 0 &&& 0xFF)
  | .REG_IMM => (raw ||| ((i.destReg.getD 0 &&& 0xFF) <<< 16)) ||| (i.immediate.getD 0 &&& 0xFFFF)
  | .REG_UNARY => raw ||| ((i.destReg.getD 0 &&& 0xFF) <<< 16)
  | .LOAD => (raw ||| ((i.destReg.getD 0 &&& 0xFF) <<< 16)) ||| (i.sourceReg.getD 0 &&& 0xFF)
  | .STORE => (raw ||| ((i.destReg.getD 0 &&& 0xFF) <<< 16)) ||| (i.sourceReg.getD 0 &&& 0xFF)
  | .JUMP => raw ||| (i.address.getD 0 &&& 0xFFFF)

/-- Claim-side definition (from the round-trip sentence of the spec): a
decoded instruction is representable when its type matches its opcode's
operand-shape class, exactly the fields of that class are populated,
register fields lie in 0..8, the immediate is in the image of the 16-bit
sign extension, and the jump address fits in 16 bits. -/
def regOk : Option Nat → Bool
  | some n => n ≤ 8
  | none => false

def immOk : Option Nat → Bool
  | some v => signExtend16To32 (v &&& 0xFFFF) == v
  | none => false

def addrOk : Option Nat → Bool
  | some a => a < 65536
  | none => false

def Instruction.wf (i : Instruction) : Bool :=
  i.instructionType == getInstructionType i.opcode &&
  match i.instructionType with
  | .NO_OPERANDS =>
    i.destReg == none && i.sourceReg == none && i.immediate == none && i.address == none
  | .REG_REG =>
    regOk i.destReg && regOk i.sourceReg && i.immediate == none && i.address == none
  | .REG_IMM =>
    regOk i.destReg && i.sourceReg == none && immOk i.immediate && i.address == none
  | .REG_UNARY =>
    regOk i.destReg && i.sourceReg == none && i.immediate == none && i.address == none
  | .LOAD =>
    regOk i.destReg && regOk i.sourceReg && i.immediate == none && i.address == none
  | .STORE =>
    regOk i.destReg && regOk i.sourceReg && i.immediate == none && i.address == none
  | .JUMP =>
    i.destReg == none && i.sourceReg == none && i.immediate == none && addrOk i.address

/-- Claim-side definition: a 32-bit instruction word with the bits that
its opcode's operand-shape class ignores cleared to zero, keeping only
the fields the decoder reads for that class. -/
def canonicalWord (w : Nat) : Nat :=
  let opcodeField := ((w >>> 24) &&& 0xFF) <<< 24
  let reg1Field := ((w >>> 16) &&& 0xFF) <<< 16
  let operand := w &&& 0xFFFF
  match opCodeOfNat ((w >>> 24) &&& 0xFF) with
  | none => w
  | some op =>
    match getInstructionType op with
    | .NO_OPERANDS => opcodeField
    | .REG_REG => opcodeField + reg1Field + (operand &&& 0xFF)
    | .REG_IMM => opcodeField + reg1Field + operand
    | .REG_UNARY => opcodeField + reg1Field
    | .LOAD => opcodeField + reg1Field + (operand &&& 0xFF)
    | .STORE => opcodeField + reg1Field + (operand &&& 0xFF)
    | .JUMP => opcodeField + operand

/-! ## CPU (cpu.py)

The CPU object owns Memory/Registers/Flags and the running/halted state.
Handlers mutate the shared objects in place; in the embedding each
handler maps a state to a state, and a raised exception is a `some`
error paired with the state as it stands at the raise point. -/

structure CPUState where
  memory : Memory
  registers : Registers
  flags : Flags
  running : Bool
  halted : Bool
  cycleCount : Nat
  stackBase : Nat
deriving DecidableEq

/-- CPU.__init__. -/
def CPU.init (memorySize stackSize : Nat) : CPUState :=
  let stackBase := memorySize - stackSize
  { memory := Memory.init memorySize
    registers := { Registers.init 8 with sp := stackBase }
    flags := Flags.init
    running := false
    halted := false
    cycleCount := 0
    stackBase := stackBase }

/-- Reading an operand field of an Instruction and feeding it to a
register/ALU access: a missing field (Python None) raises a TypeError
inside the access.  Unreachable for decoder-produced instructions. -/
def needField (x : Option Nat) : Except Err Nat :=
  match x with
  | some n => .ok n
  | none => .error .typeErr

/-- `self.registers[instruction.field]` as used by the handlers. -/
def CPUState.getReg (s : CPUState) (field : Option Nat) : Except Err Nat :=
  match needField field with
  | .error e => .error e
  | .ok n => s.registers.get n

/-- `self.registers[instruction.field] = value` as used by the handlers. -/
def CPUState.setReg (s : CPUState) (field : Option Nat) (value : Nat) :
    Except Err CPUState :=
  match needField field with
  | .error e => .error e
  | .ok n =>
    match s.registers.set n value with
    | .error e => .error e
    | .ok r => .ok { s with registers := r }

/-- The shared shape of the binary register-register handlers
(_execute_add_reg, _execute_sub_reg, _execute_mul_reg, _execute_and_reg,
_execute_or_reg, _execute_xor_reg, _execute_shl_reg, _execute_shr_reg,
_execute_sar_reg): read dest and source registers, run the ALU operation
(which updates the flags), write the result back to dest. -/
def CPU.execBinReg (s : CPUState) (i : Instruction)
    (aluOp : Nat → Nat → Flags → Nat × Flags) : CPUState × Option Err :=
  match s.getReg i.destReg with
  | .error e => (s, some e)
  | .ok destValue =>
    match s.getReg i.sourceReg with
    | .error e => (s, some e)
    | .ok sourceValue =>
      let (result, f) := aluOp destValue sourceValue s.flags
      let s := { s with flags := f }
      match s.setReg i.destReg result with
      | .error e => (s, some e)
      | .ok s => (s, none)

/-- The shared shape of the binary register-immediate handlers
(_execute_add_imm and friends): like `execBinReg` with the instruction's
immediate as the second ALU operand. -/
def CPU.execBinImm (s : CPUState) (i : Instruction)
    (aluOp : Nat → Nat → Flags → Nat × Flags) : CPUState × Option Err :=
  match s.getReg i.destReg with
  | .error e => (s, some e)
  | .ok destValue =>
    match needField i.immediate with
    | .error e => (s, some e)
    | .ok imm =>
      let (result, f) := aluOp destValue imm s.flags
      let s := { s with flags := f }
      match s.setReg i.destReg result with
      | .error e => (s, some e)
      | .ok s => (s, none)

/-- _execute_mov_reg. -/
def CPU.execMovReg (s : CPUState) (i : Instruction) : CPUState × Option Err :=
  match s.getReg i.sourceReg with
  | .error e => (s, some e)
  | .ok sourceValue =>
    match s.setReg i.destReg sourceValue with
    | .error e => (s, some e)
    | .ok s => (s, none)

/-- _execute_mov_imm. -/
def CPU.execMovImm (s : CPUState) (i : Instruction) : CPUState × Option Err :=
  match needField i.immediate with
  | .error e => (s, some e)
  | .ok imm =>
    match s.setReg i.destReg imm with
    | .error e => (s, some e)
    | .ok s => (s, none)

/-- _execute_load. -/
def CPU.execLoad (s : CPUState) (i : Instruction) : CPUState × Option Err :=
  match s.getReg i.sourceReg with
  | .error e => (s, some e)
  | .ok address =>
    match s.memory.readWord address with
    | .error e => (s, some e)
    | .ok value =>
      match s.setReg i.destReg value with
      | .error e => (s, some e)
      | .ok s => (s, none)

/-- _execute_store: the dest register holds the address, the source
register the value. -/
def CPU.execStore (s : CPUState) (i : Instruction) : CPUState × Option Err :=
  match s.getReg i.destReg with
  | .error e => (s, some e)
  | .ok address =>
    match s.getReg i.sourceReg with
    | .error e => (s, some e)
    | .ok value =>
      match s.memory.writeWord address value with
      | (m, some e) => ({ s with memory := m }, some e)
      | (m, none) => ({ s with memory := m }, none)

/-- _execute_div_reg: ALU.div fails on a zero divisor before touching the
flags; the quotient goes to dest, the remainder is discarded. -/
def CPU.execDivReg (s : CPUState) (i : Instruction) : CPUState × Option Err :=
  match s.getReg i.destReg with
  | .error e => (s, some e)
  | .ok destValue =>
    match s.getReg i.sourceReg with
    | .error e => (s, some e)
    | .ok sourceValue =>
      match ALU.div destValue sourceValue s.flags with
      | (none, f) => ({ s with flags := f }, some .divisionByZero)
      | (some (quotient, _), f) =>
        let s := { s with flags := f }
        match s.setReg i.destReg quotient with
        | .error e => (s, some e)
        | .ok s => (s, none)

/-- _execute_div_imm. -/
def CPU.execDivImm (s : CPUState) (i : Instruction) : CPUState × Option Err :=
  match s.getReg i.destReg with
  | .error e => (s, some e)
  | .ok destValue =>
    match needField i.immediate with
    | .error e => (s, some e)
    | .ok imm =>
      match ALU.div destValue imm s.flags with
      | (none, f) => ({ s with flags := f }, some .divisionByZero)
      | (some (quotient, _), f) =>
        let s := { s with flags := f }
        match s.setReg i.destReg quotient with
        | .error e => (s, some e)
        | .ok s => (s, none)

/-- _execute_not. -/
def CPU.execNot (s : CPUState) (i : Instruction) : CPUState × Option Err :=
  match s.getReg i.destReg with
  | .error e => (s, some e)
  | .ok destValue =>
    let (result, f) := ALU.logicalNot destValue s.flags
    let s := { s with flags := f }
    match s.setReg i.destReg result with
    | .error e => (s, some e)
    | .ok s => (s, none)

/-- _execute_cmp_reg. -/
def CPU.execCmpReg (s : CPUState) (i : Instruction) : CPUState × Option Err :=
  match s.getReg i.destReg with
  | .error e => (s, some e)
  | .ok value1 =>
    match s.getReg i.sourceReg with
    | .error e => (s, some e)
    | .ok value2 => ({ s with flags := ALU.compare value1 value2 s.flags }, none)

/-- _execute_cmp_imm. -/
def CPU.execCmpImm (s : CPUState) (i : Instruction) : CPUState × Option Err :=
  match s.getReg i.destReg with
  | .error e => (s, some e)
  | .ok value1 =>
    match needField i.immediate with
    | .error e => (s, some e)
    | .ok imm => ({ s with flags := ALU.compare value1 imm s.flags }, none)

/-- The jump handlers assign `self.registers.pc = instruction.address`
directly.  Python would store None if the field were missing (failing at
the next fetch); for decoder-produced jump instructions the field is
always populated, and the embedding signals the missing field at the
assignment. -/
def CPU.setPC (s : CPUState) (address : Option Nat) : CPUState × Option Err :=
  match address with
  | none => (s, some .typeErr)
  | some a => ({ s with registers := { s.registers with pc := a } }, none)

/-- _execute_jmp. -/
def CPU.execJmp (s : CPUState) (i : Instruction) : CPUState × Option Err :=
  CPU.setPC s i.address

/-- The shared shape of the six conditional jumps: jump when `cond` holds
of the flag read by the handler. -/
def CPU.execJumpIf (s : CPUState) (i : Instruction) (cond : Bool) :
    CPUState × Option Err :=
  if cond then CPU.setPC s i.address else (s, none)

/-- CPU.execute_instruction: dispatch on the opcode.  The trailing
"unimplemented instruction" branch of the source is unreachable because
all 36 opcodes are dispatched. -/
def CPU.executeInstruction (s : CPUState) (i : Instruction) : CPUState × Option Err :=
  match i.opcode with
  | .NOP => (s, none)
  | .HALT => ({ s with halted := true, running := false }, none)
  | .MOV_REG => CPU.execMovReg s i
  | .MOV_IMM => CPU.execMovImm s i
  | .LOAD => CPU.execLoad s i
  | .STORE => CPU.execStore s i
  | .ADD_REG => CPU.execBinReg s i ALU.add
  | .ADD_IMM => CPU.execBinImm s i ALU.add
  | .SUB_REG => CPU.execBinReg s i ALU.sub
  | .SUB_IMM => CPU.execBinImm s i ALU.sub
  | .MUL_REG => CPU.execBinReg s i ALU.mul
  | .MUL_IMM => CPU.execBinImm s i ALU.mul
  | .DIV_REG => CPU.execDivReg s i
  | .DIV_IMM => CPU.execDivImm s i
  | .AND_REG => CPU.execBinReg s i ALU.logicalAnd
  | .AND_IMM => CPU.execBinImm s i ALU.logicalAnd
  | .OR_REG => CPU.execBinReg s i ALU.logicalOr
  | .OR_IMM => CPU.execBinImm s i ALU.logicalOr
  | .XOR_REG => CPU.execBinReg s i ALU.logicalXor
  | .XOR_IMM => CPU.execBinImm s i ALU.logicalXor
  | .NOT => CPU.execNot s i
  | .SHL_REG => CPU.execBinReg s i ALU.shiftLeft
  | .SHL_IMM => CPU.execBinImm s i ALU.shiftLeft
  | .SHR_REG => CPU.execBinReg s i ALU.shiftRight
  | .SHR_IMM => CPU.execBinImm s i ALU.shiftRight
  | .SAR_REG => CPU.execBinReg s i ALU.arithmeticShiftRight
  | .SAR_IMM => CPU.execBinImm s i ALU.arithmeticShiftRight
  | .CMP_REG => CPU.execCmpReg s i
  | .CMP_IMM => CPU.execCmpImm s i
  | .JMP => CPU.execJmp s i
  | .JZ => CPU.execJumpIf s i (s.flags.z ≠ 0)
  | .JNZ => CPU.execJumpIf s i (¬ s.flags.z ≠ 0)
  | .JC => CPU.execJumpIf s i (s.flags.c ≠ 0)
  | .JNC => CPU.execJumpIf s i (¬ s.flags.c ≠ 0)
  | .JS => CPU.execJumpIf s i (s.flags.s ≠ 0)
  | .JNS => CPU.execJumpIf s i (¬ s.flags.s ≠ 0)

/-- CPU.fetch_instruction: read a word at PC; a BadAddressException is
re-raised as InvalidInstructionException (with the state untouched); on
success PC advances by 4 modulo 2^32. -/
def CPU.fetchInstruction (s : CPUState) : Except Err (Nat × CPUState) :=
  let pc := s.registers.pc
  match s.memory.readWord pc with
  | .error _ => .error .invalidInstruction
  | .ok instruction =>
    .ok (instruction,
      { s with registers := { s.registers with pc := (pc + 4) &&& 0xFFFFFFFF } })

/-- CPU.step: no-op when halted; otherwise fetch, decode, execute, and
increment cycle_count only after a successful execute.  Any failure sets
running to false and surfaces the error to the caller (the `some`
component models the re-raised exception). -/
def CPU.step (s : CPUState) : CPUState × Option Err :=
  if s.halted then (s, none)
  else
    match CPU.fetchInstruction s with
    | .error e => ({ s with running := false }, some e)
    | .ok (instructionWord, s1) =>
      match InstructionDecoder.decode instructionWord with
      | .error e => ({ s1 with running := false }, some e)
      | .ok instruction =>
        match CPU.executeInstruction s1 instruction with
        | (s2, some e) => ({ s2 with running := false }, some e)
        | (s2, none) => ({ s2 with cycleCount := s2.cycleCount + 1 }, none)

/-! ## Bit-arithmetic bridge lemmas

These rewrite the masking/shifting idioms of the source into `%`, `/`
and `*` so that `omega` can finish the numeric goals. -/

theorem and_mask32 (x : Nat) : x &&& 0xFFFFFFFF = x % 4294967296 := by
  have h := Nat.and_pow_two_sub_one_eq_mod x 32
  norm_num at h
  exact h

theorem and_maskFFFF (x : Nat) : x &&& 0xFFFF = x % 65536 := by
  have h := Nat.and_pow_two_sub_one_eq_mod x 16
  norm_num at h
  exact h

theorem and_maskFF (x : Nat) : x &&& 0xFF = x % 256 := by
  have h := Nat.and_pow_two_sub_one_eq_mod x 8
  norm_num at h
  exact h

theorem and_mask1F (x : Nat) : x &&& 0x1F = x % 32 := by
  have h := Nat.and_pow_two_sub_one_eq_mod x 5
  norm_num at h
  exact h

theorem and_sign_ne (x : Nat) : (x &&& 0x80000000 ≠ 0) ↔ x / 2 ^ 31 % 2 = 1 := by
  have h := Nat.and_two_pow x 31
  have ht : x.testBit 31 = decide (x / 2 ^ 31 % 2 = 1) := Nat.testBit_to_div_mod
  norm_num at h
  rw [h]
  rcases hb : x.testBit 31 with _ | _ <;> rw [hb] at ht <;> simp_all

theorem shiftRight_div (x n : Nat) : x >>> n = x / 2 ^ n :=
  Nat.shiftRight_eq_div_pow x n

theorem shiftLeft_mul (x n : Nat) : x <<< n = x * 2 ^ n :=
  Nat.shiftLeft_eq x n

/-- Disjoint bitwise or is addition: if the low `k` bits of `x` are clear
and `y` fits in `k` bits, `x ||| y = x + y`. -/
theorem or_of_disjoint {k x y : Nat} (hx : x % 2 ^ k = 0) (hy : y < 2 ^ k) :
    x ||| y = x + y := by
  obtain ⟨a, rfl⟩ := (Nat.dvd_iff_mod_eq_zero).mpr hx
  rw [← Nat.mul_add_lt_is_or hy a]

/-- `intMask32` really is `mod 2^32` on integers. -/
theorem intMask32_eq (x : Int) : (intMask32 x : Int) = x % 4294967296 := by
  unfold intMask32
  have : (0 : Int) ≤ x % 4294967296 := Int.emod_nonneg x (by norm_num)
  omega

theorem intMask32_lt (x : Int) : intMask32 x < 4294967296 := by
  have h := intMask32_eq x
  have h2 : x % 4294967296 < 4294967296 := Int.emod_lt_of_pos x (by norm_num)
  omega

/-! ## Claim theorems -/

/-- C6: for every 32-bit value `a` (in fact every `a`), dividing by zero
fails with the division-by-zero condition (the `none` component models
the ZeroDivisionError raise) and the flags are returned exactly as they
were: no flag update occurs. -/
theorem div_by_zero_fails_flags_untouched (a : Nat) (f : Flags) :
    ALU.div a 0 f = (none, f) := by
  simp [ALU.div]

/-- C10: add_with_carry and sub_with_carry never touch the Overflow flag:
their update is basic_update (Z, S, P) plus an explicit Carry write, so O
keeps its prior value for every pair of operands and every flag state. -/
theorem carry_chain_ops_preserve_overflow (a b : Nat) (f : Flags) :
    (ALU.addWithCarry a b f).2.o = f.o ∧ (ALU.subWithCarry a b f).2.o = f.o := by
  constructor <;> simp [ALU.addWithCarry, ALU.subWithCarry, Flags.basicUpdate]

/-- Claim-side formalization: the sign bit (bit 31) of a 32-bit value. -/
def signBit32 (x : Nat) : Nat := x / 2 ^ 31 % 2

theorem toSigned_nonneg_iff (x : Nat) (hx : x < 4294967296) :
    (0 ≤ toSigned x) ↔ x < 2147483648 := by
  unfold toSigned
  split <;> omega

theorem toSignedInt_nonneg_iff (x : Int) (hx : x < 4294967296) :
    (0 ≤ toSignedInt x) ↔ (0 ≤ x ∧ x < 2147483648) := by
  unfold toSignedInt
  split <;> omega

/-- C5: ALU.add returns the 32-bit wrapped sum; Carry is set exactly when
the unsigned sum exceeds 2^32 - 1; Overflow is set exactly when the two
operands have equal sign bits and the result's sign bit differs from
theirs. -/
theorem add_result_carry_overflow (a b : Nat) (f : Flags)
    (ha : a < 4294967296) (hb : b < 4294967296) :
    (ALU.add a b f).1 = (a + b) % 4294967296 ∧
    ((ALU.add a b f).2.c = 1 ↔ 4294967295 < a + b) ∧
    ((ALU.add a b f).2.o = 1 ↔
      (signBit32 a = signBit32 b ∧
        signBit32 ((a + b) % 4294967296) ≠ signBit32 a)) := by
  have hmr : (a + b) &&& 0xFFFFFFFF = (a + b) % 4294967296 := and_mask32 _
  have hma : a &&& 0xFFFFFFFF = a := by rw [and_mask32]; omega
  have hmb : b &&& 0xFFFFFFFF = b := by rw [and_mask32]; omega
  have hmr2 : ((a + b) % 4294967296) &&& 0xFFFFFFFF = (a + b) % 4294967296 := by
    rw [and_mask32]; omega
  refine ⟨?_, ?_, ?_⟩
  · simp only [ALU.add, hma, hmb, hmr]
  · simp only [ALU.add, Flags.arithmeticUpdate, Flags.updateFlagsForAdd,
      Flags.basicUpdate, hma, hmb, hmr, hmr2]
    split <;> simp <;> omega
  · simp only [ALU.add, Flags.arithmeticUpdate, Flags.updateFlagsForAdd,
      Flags.basicUpdate, hma, hmb, hmr, hmr2]
    simp only [toSigned_nonneg_iff a ha, toSigned_nonneg_iff b hb,
      toSigned_nonneg_iff ((a + b) % 4294967296) (by omega)]
    unfold signBit32
    split <;> simp <;> omega

/-- Witness for C5 at a = 3, b = 5. -/
theorem add_result_carry_overflow_witness :
    (ALU.add 3 5 Flags.init).1 = (3 + 5) % 4294967296 ∧
    ((ALU.add 3 5 Flags.init).2.c = 1 ↔ 4294967295 < 3 + 5) ∧
    ((ALU.add 3 5 Flags.init).2.o = 1 ↔
      (signBit32 3 = signBit32 5 ∧
        signBit32 ((3 + 5) % 4294967296) ≠ signBit32 3)) :=
  add_result_carry_overflow 3 5 Flags.init (by norm_num) (by norm_num)

/-- C2: at a = 0, b = 0x80000001 = 2147483649 the code contradicts the
claim.  Carry agrees between SUB and CMP (both 1, since a < b), but SUB
computes Overflow from the masked difference (0x7FFFFFFF, sign bit 0,
matching a's sign, so O = 0 — exactly the claim's rule) while CMP feeds
the raw difference a - b = -(2^31 + 1) to _update_flags_for_sub and gets
O = 1.  CMP therefore does not update the flags exactly as SUB does, and
its Overflow violates the claim's formula. -/
theorem cmp_sub_overflow_divergence :
    (ALU.sub 0 2147483649 Flags.init).2.c = 1 ∧
    (ALU.compare 0 2147483649 Flags.init).c = 1 ∧
    (ALU.sub 0 2147483649 Flags.init).2.o = 0 ∧
    (ALU.compare 0 2147483649 Flags.init).o = 1 :=
  ⟨rfl, rfl, rfl, rfl⟩

/-- The Carry flag produced by ALU.add, needed to reason about an
ADD/ADDC chain. -/
theorem add_carry_flag (x y : Nat) (g : Flags)
    (hx : x < 4294967296) (hy : y < 4294967296) :
    (ALU.add x y g).2.c = if 4294967295 < x + y then 1 else 0 := by
  have hmx : x &&& 0xFFFFFFFF = x := by rw [and_mask32]; omega
  have hmy : y &&& 0xFFFFFFFF = y := by rw [and_mask32]; omega
  simp only [ALU.add, Flags.arithmeticUpdate, Flags.updateFlagsForAdd,
    Flags.basicUpdate, hmx, hmy]

/-- The numeric result of ALU.add. -/
theorem add_result (x y : Nat) (g : Flags)
    (hx : x < 4294967296) (hy : y < 4294967296) :
    (ALU.add x y g).1 = (x + y) % 4294967296 := by
  have hmx : x &&& 0xFFFFFFFF = x := by rw [and_mask32]; omega
  have hmy : y &&& 0xFFFFFFFF = y := by rw [and_mask32]; omega
  simp only [ALU.add, hmx, hmy, and_mask32]

/-- C7: add_with_carry returns (a + b + C_in) mod 2^32 where C_in is the
current Carry flag, sets Carry exactly when the full sum exceeds
0xFFFFFFFF, and consequently an ADD of the low words followed by an ADDC
of the high words computes a correct 64-bit sum. -/
theorem add_with_carry_correct (a b : Nat) (f : Flags)
    (ha : a < 4294967296) (hb : b < 4294967296) :
    (ALU.addWithCarry a b f).1 = (a + b + f.c) % 4294967296 ∧
    ((ALU.addWithCarry a b f).2.c = 1 ↔ 4294967295 < a + b + f.c) ∧
    (∀ aLo aHi bLo bHi : Nat,
      aLo < 4294967296 → aHi < 4294967296 →
      bLo < 4294967296 → bHi < 4294967296 →
      (ALU.addWithCarry aHi bHi (ALU.add aLo bLo f).2).1 * 4294967296 +
          (ALU.add aLo bLo f).1 =
        (aHi * 4294967296 + aLo + (bHi * 4294967296 + bLo)) %
          18446744073709551616) := by
  have hma : a &&& 0xFFFFFFFF = a := by rw [and_mask32]; omega
  have hmb : b &&& 0xFFFFFFFF = b := by rw [and_mask32]; omega
  refine ⟨?_, ?_, ?_⟩
  · simp only [ALU.addWithCarry, hma, hmb, and_mask32]
  · simp only [ALU.addWithCarry, hma, hmb]
    split <;> simp <;> omega
  · intro aLo aHi bLo bHi hal hah hbl hbh
    have hmah : aHi &&& 0xFFFFFFFF = aHi := by rw [and_mask32]; omega
    have hmbh : bHi &&& 0xFFFFFFFF = bHi := by rw [and_mask32]; omega
    have h3 : (ALU.addWithCarry aHi bHi (ALU.add aLo bLo f).2).1 =
        (aHi + bHi + (ALU.add aLo bLo f).2.c) % 4294967296 := by
      simp only [ALU.addWithCarry, hmah, hmbh, and_mask32]
    rw [h3, add_carry_flag aLo bLo f hal hbl, add_result aLo bLo f hal hbl]
    split <;> omega

/-- Witness for C7 at a = 0xFFFFFFFF, b = 1 with an initial flag state. -/
theorem add_with_carry_correct_witness :
    (ALU.addWithCarry 4294967295 1 Flags.init).1 =
        (4294967295 + 1 + Flags.init.c) % 4294967296 ∧
    ((ALU.addWithCarry 4294967295 1 Flags.init).2.c = 1 ↔
        4294967295 < 4294967295 + 1 + Flags.init.c) ∧
    (∀ aLo aHi bLo bHi : Nat,
      aLo < 4294967296 → aHi < 4294967296 →
      bLo < 4294967296 → bHi < 4294967296 →
      (ALU.addWithCarry aHi bHi (ALU.add aLo bLo Flags.init).2).1 * 4294967296 +
          (ALU.add aLo bLo Flags.init).1 =
        (aHi * 4294967296 + aLo + (bHi * 4294967296 + bLo)) %
          18446744073709551616) :=
  add_with_carry_correct 4294967295 1 Flags.init (by norm_num) (by norm_num)

/-- C9: when the rotation count is congruent to 0 mod 32 (the count is
masked to 5 bits), rotate_left and rotate_right return the operand
unchanged and leave all five flags exactly as they were, while shift_left
and shift_right with the same zero count still run basic_update on the
result. -/
theorem rotate_zero_count_no_flag_update (a c : Nat) (f : Flags)
    (ha : a < 4294967296) (hc : c % 32 = 0) :
    ALU.rotateLeft a c f = (a, f) ∧ ALU.rotateRight a c f = (a, f) ∧
    ALU.shiftLeft a c f = (a, f.basicUpdate a) ∧
    ALU.shiftRight a c f = (a, f.basicUpdate a) := by
  have hma : a &&& 0xFFFFFFFF = a := by rw [and_mask32]; omega
  have hcount : c &&& 0x1F = 0 := by rw [and_mask1F]; omega
  simp [ALU.rotateLeft, ALU.rotateRight, ALU.shiftLeft, ALU.shiftRight,
    Flags.shiftLeftUpdate, Flags.shiftRightUpdate, hma, hcount]

/-- Witness for C9 at a = 5, c = 32. -/
theorem rotate_zero_count_no_flag_update_witness :
    ALU.rotateLeft 5 32 Flags.init = (5, Flags.init) ∧
    ALU.rotateRight 5 32 Flags.init = (5, Flags.init) ∧
    ALU.shiftLeft 5 32 Flags.init = (5, Flags.init.basicUpdate 5) ∧
    ALU.shiftRight 5 32 Flags.init = (5, Flags.init.basicUpdate 5) :=
  rotate_zero_count_no_flag_update 5 32 Flags.init (by norm_num) (by norm_num)

/-- The value computed by rotate_left for a nonzero masked count: the low
`32 - k` bits move up by `k` and the high `k` bits wrap to the bottom. -/
theorem rotate_left_value (a k : Nat) (f : Flags)
    (ha : a < 4294967296) (hk1 : 1 ≤ k) (hk2 : k ≤ 31) :
    (ALU.rotateLeft a k f).1 = a % 2 ^ (32 - k) * 2 ^ k + a / 2 ^ (32 - k) := by
  have hma : a &&& 0xFFFFFFFF = a := by rw [and_mask32]; omega
  have hcnt : k &&& 0x1F = k := by rw [and_mask1F]; omega
  have hk0 : ¬ k = 0 := by omega
  have hpow : (2 : Nat) ^ (32 - k) * 2 ^ k = 4294967296 := by
    rw [← pow_add]
    have h32 : 32 - k + k = 32 := by omega
    rw [h32]
    norm_num
  have hmpos : 0 < (2 : Nat) ^ (32 - k) := Nat.pos_pow_of_pos _ (by norm_num)
  have hq : a / 2 ^ (32 - k) < 2 ^ k := by
    rw [Nat.div_lt_iff_lt_mul hmpos, Nat.mul_comm]
    omega
  have hsplit : 2 ^ (32 - k) * (a / 2 ^ (32 - k)) + a % 2 ^ (32 - k) = a :=
    Nat.div_add_mod a (2 ^ (32 - k))
  have hr : a % 2 ^ (32 - k) < 2 ^ (32 - k) := Nat.mod_lt _ hmpos
  simp only [ALU.rotateLeft, hma, hcnt, if_neg hk0]
  rw [shiftLeft_mul, shiftRight_div,
    or_of_disjoint (Nat.mul_mod_left a (2 ^ k)) hq, and_mask32]
  have h1 : a * 2 ^ k =
      a / 2 ^ (32 - k) * 4294967296 + a % 2 ^ (32 - k) * 2 ^ k := by
    rw [← hpow]
    conv_lhs => rw [← hsplit]
    ring
  have hlt : a % 2 ^ (32 - k) * 2 ^ k + a / 2 ^ (32 - k) < 4294967296 := by
    have h2 : a % 2 ^ (32 - k) * 2 ^ k + a / 2 ^ (32 - k) <
        (a % 2 ^ (32 - k) + 1) * 2 ^ k := by
      have := hq
      nlinarith [hq]
    have h3 : (a % 2 ^ (32 - k) + 1) * 2 ^ k ≤ 2 ^ (32 - k) * 2 ^ k :=
      Nat.mul_le_mul_right _ (by omega)
    omega
  rw [h1]
  generalize hX : a % 2 ^ (32 - k) * 2 ^ k = X at hlt ⊢
  generalize hQ : a / 2 ^ (32 - k) = Q at hlt ⊢
  omega

/-- The value computed by rotate_right for a nonzero masked count. -/
theorem rotate_right_value (v k : Nat) (g : Flags)
    (hv : v < 4294967296) (hk1 : 1 ≤ k) (hk2 : k ≤ 31) :
    (ALU.rotateRight v k g).1 = v % 2 ^ k * 2 ^ (32 - k) + v / 2 ^ k := by
  have hmv : v &&& 0xFFFFFFFF = v := by rw [and_mask32]; omega
  have hcnt : k &&& 0x1F = k := by rw [and_mask1F]; omega
  have hk0 : ¬ k = 0 := by omega
  have hpow : (2 : Nat) ^ k * 2 ^ (32 - k) = 4294967296 := by
    rw [← pow_add]
    have h32 : k + (32 - k) = 32 := by omega
    rw [h32]
    norm_num
  have hkpos : 0 < (2 : Nat) ^ k := Nat.pos_pow_of_pos _ (by norm_num)
  have hq : v / 2 ^ k < 2 ^ (32 - k) := by
    rw [Nat.div_lt_iff_lt_mul hkpos, Nat.mul_comm]
    omega
  have hsplit : 2 ^ k * (v / 2 ^ k) + v % 2 ^ k = v := Nat.div_add_mod v (2 ^ k)
  have hr : v % 2 ^ k < 2 ^ k := Nat.mod_lt _ hkpos
  simp only [ALU.rotateRight, hmv, hcnt, if_neg hk0]
  rw [shiftLeft_mul, shiftRight_div, Nat.lor_comm,
    or_of_disjoint (Nat.mul_mod_left v (2 ^ (32 - k))) hq, and_mask32]
  have h1 : v * 2 ^ (32 - k) =
      v / 2 ^ k * 4294967296 + v % 2 ^ k * 2 ^ (32 - k) := by
    rw [← hpow]
    conv_lhs => rw [← hsplit]
    ring
  have hlt : v % 2 ^ k * 2 ^ (32 - k) + v / 2 ^ k < 4294967296 := by
    have h2 : v % 2 ^ k * 2 ^ (32 - k) + v / 2 ^ k <
        (v % 2 ^ k + 1) * 2 ^ (32 - k) := by
      nlinarith [hq]
    have h3 : (v % 2 ^ k + 1) * 2 ^ (32 - k) ≤ 2 ^ k * 2 ^ (32 - k) :=
      Nat.mul_le_mul_right _ (by omega)
    omega
  rw [h1]
  generalize hX : v % 2 ^ k * 2 ^ (32 - k) = X at hlt ⊢
  generalize hQ : v / 2 ^ k = Q at hlt ⊢
  omega

/-- C8: rotating left then right by the same count k in 0..31 restores
every 32-bit value (for any flag states threaded through). -/
theorem rotate_round_trip (a k : Nat) (f g : Flags)
    (ha : a < 4294967296) (hk : k ≤ 31) :
    (ALU.rotateRight (ALU.rotateLeft a k f).1 k g).1 = a := by
  have hma : a &&& 0xFFFFFFFF = a := by rw [and_mask32]; omega
  rcases Nat.eq_zero_or_pos k with hk0 | hk1
  · subst hk0
    simp [ALU.rotateLeft, ALU.rotateRight, hma]
  · have hmpos : 0 < (2 : Nat) ^ (32 - k) := Nat.pos_pow_of_pos _ (by norm_num)
    have hkpos : 0 < (2 : Nat) ^ k := Nat.pos_pow_of_pos _ (by norm_num)
    have hpow : (2 : Nat) ^ (32 - k) * 2 ^ k = 4294967296 := by
      rw [← pow_add]
      have h32 : 32 - k + k = 32 := by omega
      rw [h32]
      norm_num
    have hq : a / 2 ^ (32 - k) < 2 ^ k := by
      rw [Nat.div_lt_iff_lt_mul hmpos, Nat.mul_comm]
      omega
    have hr : a % 2 ^ (32 - k) < 2 ^ (32 - k) := Nat.mod_lt _ hmpos
    have hv : a % 2 ^ (32 - k) * 2 ^ k + a / 2 ^ (32 - k) < 4294967296 := by
      have h2 : a % 2 ^ (32 - k) * 2 ^ k + a / 2 ^ (32 - k) <
          (a % 2 ^ (32 - k) + 1) * 2 ^ k := by
        nlinarith [hq]
      have h3 : (a % 2 ^ (32 - k) + 1) * 2 ^ k ≤ 2 ^ (32 - k) * 2 ^ k :=
        Nat.mul_le_mul_right _ (by omega)
      omega
    rw [rotate_left_value a k f ha hk1 hk,
      rotate_right_value _ k g hv hk1 hk,
      Nat.mul_comm (a % 2 ^ (32 - k)) (2 ^ k)]
    rw [Nat.mul_add_mod, Nat.mod_eq_of_lt hq]
    rw [Nat.mul_add_div hkpos, Nat.div_eq_of_lt hq, Nat.add_zero]
    rw [Nat.mul_comm (a / 2 ^ (32 - k)) (2 ^ (32 - k))]
    have := Nat.div_add_mod a (2 ^ (32 - k))
    omega

/-- Witness for C8 at a = 0x80000001, k = 3. -/
theorem rotate_round_trip_witness :
    (ALU.rotateRight (ALU.rotateLeft 2147483649 3 Flags.init).1 3
        Flags.init).1 = 2147483649 :=
  rotate_round_trip 2147483649 3 Flags.init Flags.init (by norm_num) (by norm_num)

theorem getD_set_self (l : List Nat) (i a : Nat) (h : i < l.length) :
    (l.set i a).getD i 0 = a := by
  simp [List.getElem?_set_self h]

theorem getD_set_ne (l : List Nat) (i j a : Nat) (h : i ≠ j) :
    (l.set i a).getD j 0 = l.getD j 0 := by
  simp [List.getElem?_set_ne h]

theorem checkWordAddress_none (m : Memory) (addr : Nat)
    (h4 : addr % 4 = 0) (hr : addr + 3 < m.size) :
    m.checkWordAddress addr = none := by
  have h1 : addr < m.size := by omega
  simp [Memory.checkWordAddress, Memory.checkAddressRange, h1, hr, h4]

theorem writeByte_ok (m : Memory) (addr val : Nat)
    (h : addr < m.size) (h0 : 0 < m.size) :
    m.writeByte addr val = ({ m with data := m.data.set addr (val &&& 0xFF) }, none) := by
  simp [Memory.writeByte, Memory.checkAddressRange, h, h0]

theorem readByte_ok (m : Memory) (addr : Nat)
    (h : addr < m.size) (h0 : 0 < m.size) :
    m.readByte addr = .ok (m.data.getD addr 0) := by
  simp [Memory.readByte, Memory.checkAddressRange, h, h0]

/-- C3: writing a 32-bit value at a 4-byte-aligned in-bounds address
succeeds and reading the word back returns the same value; writing at a
misaligned or out-of-range address fails and leaves every byte of memory
unchanged.  The length hypothesis records the constructor invariant
`bytearray(size)` (the data array has exactly `size` bytes). -/
theorem memory_word_roundtrip_and_failure_frame :
    (∀ (m : Memory) (addr v : Nat), m.data.length = m.size →
      addr % 4 = 0 → addr + 3 < m.size → v < 4294967296 →
      (m.writeWord addr v).2 = none ∧
        ((m.writeWord addr v).1).readWord addr = .ok v) ∧
    (∀ (m : Memory) (addr v : Nat), addr % 4 ≠ 0 ∨ ¬ addr + 3 < m.size →
      (m.writeWord addr v).1 = m ∧ ((m.writeWord addr v).2).isSome = true) := by
  have hmask255 : ∀ x : Nat, x &&& 255 &&& 255 = x &&& 255 := by
    intro x
    rw [Nat.and_assoc, Nat.and_self]
  constructor
  · intro m addr v hlen h4 hr hv
    have h0 : 0 < m.size := by omega
    have ha0 : addr < m.size := by omega
    have ha1 : addr + 1 < m.size := by omega
    have ha2 : addr + 2 < m.size := by omega
    have ha3 : addr + 3 < m.size := hr
    have hwrite : m.writeWord addr v =
        ({ m with data := (((m.data.set addr ((v >>> 0) &&& 0xFF)).set (addr + 1) ((v >>> 8) &&& 0xFF)).set (addr + 2) ((v >>> 16) &&& 0xFF)).set (addr + 3) ((v >>> 24) &&& 0xFF) }, none) := by
      simp only [Memory.writeWord, Memory.writeByte, Memory.checkWordAddress,
        Memory.checkAddressRange, hmask255]
      simp [ha0, ha1, ha2, ha3, h0, h4]
    rw [hwrite]
    refine ⟨rfl, ?_⟩
    set b0 := (v >>> 0) &&& 0xFF with hb0
    set b1 := (v >>> 8) &&& 0xFF with hb1
    set b2 := (v >>> 16) &&& 0xFF with hb2
    set b3 := (v >>> 24) &&& 0xFF with hb3
    set d := (((m.data.set addr b0).set (addr + 1) b1).set
        (addr + 2) b2).set (addr + 3) b3 with hd
    have hdlen : d.length = m.data.length := by
      rw [hd]
      simp
    have hget0 : d.getD addr 0 = b0 := by
      rw [hd, getD_set_ne _ _ _ _ (by omega), getD_set_ne _ _ _ _ (by omega),
        getD_set_ne _ _ _ _ (by omega), getD_set_self _ _ _ (by omega)]
    have hget1 : d.getD (addr + 1) 0 = b1 := by
      rw [hd, getD_set_ne _ _ _ _ (by omega), getD_set_ne _ _ _ _ (by omega),
        getD_set_self _ _ _ (by simp only [List.length_set]; omega)]
    have hget2 : d.getD (addr + 2) 0 = b2 := by
      rw [hd, getD_set_ne _ _ _ _ (by omega),
        getD_set_self _ _ _ (by simp only [List.length_set]; omega)]
    have hget3 : d.getD (addr + 3) 0 = b3 := by
      rw [hd, getD_set_self _ _ _ (by simp only [List.length_set]; omega)]
    have hread : ({ m with data := d } : Memory).readWord addr =
        .ok ((b3 <<< 24) ||| (b2 <<< 16) ||| (b1 <<< 8) ||| b0) := by
      unfold Memory.readWord
      rw [checkWordAddress_none ({ m with data := d }) addr h4 ha3]
      rw [readByte_ok ({ m with data := d }) addr ha0 h0,
        readByte_ok ({ m with data := d }) (addr + 1) ha1 h0,
        readByte_ok ({ m with data := d }) (addr + 2) ha2 h0,
        readByte_ok ({ m with data := d }) (addr + 3) ha3 h0]
      simp only [hget0, hget1, hget2, hget3]
    rw [hread]
    have hlt0 : b0 < 256 := by rw [hb0, and_maskFF]; omega
    have hlt1 : b1 < 256 := by rw [hb1, and_maskFF]; omega
    have hlt2 : b2 < 256 := by rw [hb2, and_maskFF]; omega
    have hlt3 : b3 < 256 := by rw [hb3, and_maskFF]; omega
    have hor1 : (b3 <<< 24) ||| (b2 <<< 16) = b3 * 16777216 + b2 * 65536 := by
      rw [shiftLeft_mul, shiftLeft_mul,
        or_of_disjoint (k := 24) (by omega) (by omega)]
      norm_num
    have hor2 : (b3 * 16777216 + b2 * 65536) ||| (b1 <<< 8) =
        b3 * 16777216 + b2 * 65536 + b1 * 256 := by
      rw [shiftLeft_mul, or_of_disjoint (k := 16) (by omega) (by omega)]
      norm_num
    have hor3 : (b3 * 16777216 + b2 * 65536 + b1 * 256) ||| b0 =
        b3 * 16777216 + b2 * 65536 + b1 * 256 + b0 := by
      rw [or_of_disjoint (k := 8) (by omega) (by omega)]
    rw [hor1, hor2, hor3]
    have hv0 : b0 = v % 256 := by
      rw [hb0, and_maskFF, Nat.shiftRight_zero]
    have hv1 : b1 = v / 256 % 256 := by
      rw [hb1, and_maskFF, shiftRight_div]
      norm_num
    have hv2 : b2 = v / 65536 % 256 := by
      rw [hb2, and_maskFF, shiftRight_div]
      norm_num
    have hv3 : b3 = v / 16777216 % 256 := by
      rw [hb3, and_maskFF, shiftRight_div]
      norm_num
    rw [hv0, hv1, hv2, hv3]
    congr 1
    omega
  · intro m addr v hfail
    have hcheck : ∃ e, m.checkWordAddress addr = some e := by
      unfold Memory.checkWordAddress Memory.checkAddressRange
      rcases hfail with h | h
      · by_cases h1 : addr < m.size
        · by_cases h2 : addr + 3 < m.size
          · simp [h1, h2, h]
          · simp [h1, h2]
        · simp [h1]
      · by_cases h1 : addr < m.size
        · simp [h1, h]
        · simp [h1]
    obtain ⟨e, he⟩ := hcheck
    unfold Memory.writeWord
    rw [he]
    exact ⟨rfl, rfl⟩

/-- Witness for C3: a successful round trip at address 4 in an 8-byte
memory, and a failing misaligned write at address 2. -/
theorem memory_word_roundtrip_witness :
    (((Memory.init 8).writeWord 4 305419896).2 = none ∧
      (((Memory.init 8).writeWord 4 305419896).1).readWord 4 = .ok 305419896) ∧
    (((Memory.init 8).writeWord 2 7).1 = Memory.init 8 ∧
      (((Memory.init 8).writeWord 2 7).2).isSome = true) :=
  ⟨memory_word_roundtrip_and_failure_frame.1 (Memory.init 8) 4 305419896
      (by simp [Memory.init]) (by norm_num) (by simp [Memory.init]) (by norm_num),
    memory_word_roundtrip_and_failure_frame.2 (Memory.init 8) 2 7
      (Or.inl (by norm_num))⟩

/-! ## Decoder lemmas -/

theorem opCodeOfNat_toNat (op : OpCode) : opCodeOfNat op.toNat = some op := by
  cases op <;> rfl

theorem toNat_of_opCodeOfNat (n : Nat) (op : OpCode)
    (h : opCodeOfNat n = some op) : OpCode.toNat op = n := by
  unfold opCodeOfNat at h
  split at h
  all_goals first
    | exact Option.noConfusion h
    | (obtain rfl := (Option.some.inj h).symm
       rfl)

theorem toNat_lt (op : OpCode) : op.toNat < 256 := by
  cases op <;> decide

theorem and255_eq_self {x : Nat} (h : x < 256) : x &&& 255 = x := by
  rw [and_maskFF]
  omega

theorem signExtend_low16 (x : Nat) (hx : x < 65536) :
    signExtend16To32 x &&& 65535 = x := by
  unfold signExtend16To32
  split
  · rw [Nat.and_distrib_right]
    rw [show (0xFFFF0000 : Nat) &&& 65535 = 0 from by decide]
    rw [Nat.or_zero, and_maskFFFF]
    omega
  · rw [Nat.and_assoc, Nat.and_self, and_maskFFFF]
    omega

theorem de_no_operands (op : OpCode) (h : getInstructionType op = .NO_OPERANDS) :
    InstructionDecoder.decode
        (InstructionDecoder.encode ⟨op, .NO_OPERANDS, none, none, none, none⟩) =
      .ok ⟨op, .NO_OPERANDS, none, none, none, none⟩ := by
  have ht := toNat_lt op
  have henc : InstructionDecoder.encode ⟨op, .NO_OPERANDS, none, none, none, none⟩ =
      op.toNat * 16777216 := by
    simp only [InstructionDecoder.encode, and255_eq_self ht, shiftLeft_mul]
    omega
  rw [henc]
  have hf1 : (op.toNat * 16777216) >>> 24 &&& 255 = op.toNat := by
    rw [shiftRight_div, and_maskFF]
    omega
  unfold InstructionDecoder.decode
  rw [hf1]
  simp only [opCodeOfNat_toNat, h]

theorem de_reg_pair (op : OpCode) (ty : InstructionType) (d r : Nat)
    (h : getInstructionType op = ty)
    (hty : ty = .REG_REG ∨ ty = .LOAD ∨ ty = .STORE)
    (hd : d ≤ 8) (hr : r ≤ 8) :
    InstructionDecoder.decode
        (InstructionDecoder.encode ⟨op, ty, some d, some r, none, none⟩) =
      .ok ⟨op, ty, some d, some r, none, none⟩ := by
  have ht := toNat_lt op
  have hdm : d &&& 255 = d := and255_eq_self (by omega)
  have hrm : r &&& 255 = r := and255_eq_self (by omega)
  have henc : InstructionDecoder.encode ⟨op, ty, some d, some r, none, none⟩ =
      op.toNat * 16777216 + d * 65536 + r := by
    rcases hty with rfl | rfl | rfl <;>
    · simp only [InstructionDecoder.encode, Option.getD, and255_eq_self ht,
        hdm, hrm, shiftLeft_mul]
      rw [or_of_disjoint (k := 24) (x := op.toNat * 2 ^ 24) (by omega) (by omega),
        or_of_disjoint (k := 16) (by omega) (by omega)]
      omega
  rw [henc]
  have hf1 : (op.toNat * 16777216 + d * 65536 + r) >>> 24 &&& 255 = op.toNat := by
    rw [shiftRight_div, and_maskFF]
    omega
  have hf2 : (op.toNat * 16777216 + d * 65536 + r) >>> 16 &&& 255 = d := by
    rw [shiftRight_div, and_maskFF]
    omega
  have hf3 : (op.toNat * 16777216 + d * 65536 + r) &&& 65535 = r := by
    rw [and_maskFFFF]
    omega
  unfold InstructionDecoder.decode
  rw [hf1, hf2, hf3]
  rcases hty with rfl | rfl | rfl <;>
    simp [opCodeOfNat_toNat, h, validateRegister, hd, hr, hrm]

theorem de_reg_imm (op : OpCode) (d v : Nat)
    (h : getInstructionType op = .REG_IMM)
    (hd : d ≤ 8) (hv : signExtend16To32 (v &&& 0xFFFF) = v) :
    InstructionDecoder.decode
        (InstructionDecoder.encode ⟨op, .REG_IMM, some d, none, some v, none⟩) =
      .ok ⟨op, .REG_IMM, some d, none, some v, none⟩ := by
  have ht := toNat_lt op
  have hdm : d &&& 255 = d := and255_eq_self (by omega)
  have hx : v &&& 65535 < 65536 := by
    rw [and_maskFFFF]
    omega
  have henc : InstructionDecoder.encode ⟨op, .REG_IMM, some d, none, some v, none⟩ =
      op.toNat * 16777216 + d * 65536 + (v &&& 65535) := by
    simp only [InstructionDecoder.encode, Option.getD, and255_eq_self ht,
      hdm, shiftLeft_mul, and_maskFFFF]
    rw [or_of_disjoint (k := 24) (x := op.toNat * 2 ^ 24) (by omega) (by omega),
      or_of_disjoint (k := 16) (by omega) (by omega)]
    omega
  rw [henc]
  have hf1 : (op.toNat * 16777216 + d * 65536 + (v &&& 65535)) >>> 24 &&& 255 =
      op.toNat := by
    rw [shiftRight_div, and_maskFF]
    omega
  have hf2 : (op.toNat * 16777216 + d * 65536 + (v &&& 65535)) >>> 16 &&& 255 = d := by
    rw [shiftRight_div, and_maskFF]
    omega
  have hf3 : (op.toNat * 16777216 + d * 65536 + (v &&& 65535)) &&& 65535 =
      v &&& 65535 := by
    rw [and_maskFFFF, and_maskFFFF]
    omega
  unfold InstructionDecoder.decode
  rw [hf1, hf2, hf3]
  simp [opCodeOfNat_toNat, h, validateRegister, hd, hv]

theorem de_reg_unary (op : OpCode) (d : Nat)
    (h : getInstructionType op = .REG_UNARY) (hd : d ≤ 8) :
    InstructionDecoder.decode
        (InstructionDecoder.encode ⟨op, .REG_UNARY, some d, none, none, none⟩) =
      .ok ⟨op, .REG_UNARY, some d, none, none, none⟩ := by
  have ht := toNat_lt op
  have hdm : d &&& 255 = d := and255_eq_self (by omega)
  have henc : InstructionDecoder.encode ⟨op, .REG_UNARY, some d, none, none, none⟩ =
      op.toNat * 16777216 + d * 65536 := by
    simp only [InstructionDecoder.encode, Option.getD, and255_eq_self ht,
      hdm, shiftLeft_mul]
    rw [or_of_disjoint (k := 24) (x := op.toNat * 2 ^ 24) (by omega) (by omega)]
    omega
  rw [henc]
  have hf1 : (op.toNat * 16777216 + d * 65536) >>> 24 &&& 255 = op.toNat := by
    rw [shiftRight_div, and_maskFF]
    omega
  have hf2 : (op.toNat * 16777216 + d * 65536) >>> 16 &&& 255 = d := by
    rw [shiftRight_div, and_maskFF]
    omega
  unfold InstructionDecoder.decode
  rw [hf1, hf2]
  simp [opCodeOfNat_toNat, h, validateRegister, hd]

theorem de_jump (op : OpCode) (a : Nat)
    (h : getInstructionType op = .JUMP) (ha : a < 65536) :
    InstructionDecoder.decode
        (InstructionDecoder.encode ⟨op, .JUMP, none, none, none, some a⟩) =
      .ok ⟨op, .JUMP, none, none, none, some a⟩ := by
  have ht := toNat_lt op
  have ham : a &&& 65535 = a := by
    rw [and_maskFFFF]
    omega
  have henc : InstructionDecoder.encode ⟨op, .JUMP, none, none, none, some a⟩ =
      op.toNat * 16777216 + a := by
    simp only [InstructionDecoder.encode, Option.getD, and255_eq_self ht,
      ham, shiftLeft_mul]
    rw [or_of_disjoint (k := 24) (x := op.toNat * 2 ^ 24) (by omega) (by omega)]
    omega
  rw [henc]
  have hf1 : (op.toNat * 16777216 + a) >>> 24 &&& 255 = op.toNat := by
    rw [shiftRight_div, and_maskFF]
    omega
  have hf3 : (op.toNat * 16777216 + a) &&& 65535 = a := by
    rw [and_maskFFFF]
    omega
  unfold InstructionDecoder.decode
  rw [hf1, hf3]
  simp [opCodeOfNat_toNat, h]

/-- Decode after encode is the identity on well-formed instructions. -/
theorem decode_encode_of_wf (i : Instruction) (hwf : i.wf = true) :
    InstructionDecoder.decode (InstructionDecoder.encode i) = .ok i := by
  obtain ⟨op, ty, dr, sr, im, ad⟩ := i
  unfold Instruction.wf at hwf
  simp only [Bool.and_eq_true, beq_iff_eq] at hwf
  obtain ⟨hty, hrest⟩ := hwf
  cases ty
  case NO_OPERANDS =>
    simp only [Bool.and_eq_true, beq_iff_eq] at hrest
    obtain ⟨⟨⟨h1, h2⟩, h3⟩, h4⟩ := hrest
    subst h1 h2 h3 h4
    exact de_no_operands op hty.symm
  case REG_REG =>
    simp only [Bool.and_eq_true, beq_iff_eq] at hrest
    obtain ⟨⟨⟨h1, h2⟩, h3⟩, h4⟩ := hrest
    subst h3 h4
    match dr, h1, sr, h2 with
    | some d, h1, some r, h2 =>
      simp only [regOk, decide_eq_true_eq] at h1 h2
      exact de_reg_pair op .REG_REG d r hty.symm (Or.inl rfl) h1 h2
  case REG_IMM =>
    simp only [Bool.and_eq_true, beq_iff_eq] at hrest
    obtain ⟨⟨⟨h1, h2⟩, h3⟩, h4⟩ := hrest
    subst h2 h4
    match dr, h1, im, h3 with
    | some d, h1, some v, h3 =>
      simp only [regOk, decide_eq_true_eq] at h1
      simp only [immOk, beq_iff_eq] at h3
      exact de_reg_imm op d v hty.symm h1 h3
  case REG_UNARY =>
    simp only [Bool.and_eq_true, beq_iff_eq] at hrest
    obtain ⟨⟨⟨h1, h2⟩, h3⟩, h4⟩ := hrest
    subst h2 h3 h4
    match dr, h1 with
    | some d, h1 =>
      simp only [regOk, decide_eq_true_eq] at h1
      exact de_reg_unary op d hty.symm h1
  case LOAD =>
    simp only [Bool.and_eq_true, beq_iff_eq] at hrest
    obtain ⟨⟨⟨h1, h2⟩, h3⟩, h4⟩ := hrest
    subst h3 h4
    match dr, h1, sr, h2 with
    | some d, h1, some r, h2 =>
      simp only [regOk, decide_eq_true_eq] at h1 h2
      exact de_reg_pair op .LOAD d r hty.symm (Or.inr (Or.inl rfl)) h1 h2
  case STORE =>
    simp only [Bool.and_eq_true, beq_iff_eq] at hrest
    obtain ⟨⟨⟨h1, h2⟩, h3⟩, h4⟩ := hrest
    subst h3 h4
    match dr, h1, sr, h2 with
    | some d, h1, some r, h2 =>
      simp only [regOk, decide_eq_true_eq] at h1 h2
      exact de_reg_pair op .STORE d r hty.symm (Or.inr (Or.inr rfl)) h1 h2
  case JUMP =>
    simp only [Bool.and_eq_true, beq_iff_eq] at hrest
    obtain ⟨⟨⟨h1, h2⟩, h3⟩, h4⟩ := hrest
    subst h1 h2 h3
    match ad, h4 with
    | some a, h4 =>
      simp only [addrOk, decide_eq_true_eq] at h4
      exact de_jump op a hty.symm h4

/-- Encode after decode reproduces the word with its ignored bits
cleared. -/
theorem encode_decode_canonical (w : Nat) (i : Instruction)
    (hw : w < 4294967296) (hdec : InstructionDecoder.decode w = .ok i) :
    InstructionDecoder.encode i = canonicalWord w := by
  have he1 : w >>> 24 &&& 255 = w / 16777216 := by
    rw [shiftRight_div, and_maskFF]
    omega
  have he2 : w >>> 16 &&& 255 = w / 65536 % 256 := by
    rw [shiftRight_div, and_maskFF]
    norm_num
  have he3 : w &&& 65535 = w % 65536 := and_maskFFFF w
  have he4 : w % 65536 &&& 255 = w % 256 := by
    rw [and_maskFF]
    omega
  have hd256 : w / 65536 % 256 < 256 := by omega
  have hdm : w / 65536 % 256 &&& 255 = w / 65536 % 256 := and255_eq_self hd256
  have hr256 : w % 256 < 256 := by omega
  have hrm : w % 256 &&& 255 = w % 256 := and255_eq_self hr256
  unfold InstructionDecoder.decode at hdec
  rw [he1, he2, he3] at hdec
  dsimp only at hdec
  split at hdec
  · exact Except.noConfusion hdec
  · rename_i op heq
    have htv : OpCode.toNat op = w / 16777216 := toNat_of_opCodeOfNat _ _ heq
    have htn : w / 16777216 &&& 255 = w / 16777216 := and255_eq_self (by omega)
    split at hdec
    -- NO_OPERANDS
    · rename_i hty
      obtain rfl := Except.ok.inj hdec
      simp only [canonicalWord, he1, he2, he3, heq, hty,
        InstructionDecoder.encode, htn, shiftLeft_mul, htv]
    -- REG_REG
    · rename_i hty
      split at hdec
      · exact Except.noConfusion hdec
      · split at hdec
        · exact Except.noConfusion hdec
        · rw [he4] at hdec
          obtain rfl := Except.ok.inj hdec
          simp only [canonicalWord, he1, he2, he3, he4, heq, hty,
            InstructionDecoder.encode, Option.getD, htn, hdm, hrm,
            shiftLeft_mul, htv]
          rw [or_of_disjoint (k := 24) (x := w / 16777216 * 2 ^ 24)
              (by omega) (by omega),
            or_of_disjoint (k := 16) (by omega) (by omega)]
    -- REG_IMM
    · rename_i hty
      split at hdec
      · exact Except.noConfusion hdec
      · obtain rfl := Except.ok.inj hdec
        simp only [canonicalWord, he1, he2, he3, heq, hty,
          InstructionDecoder.encode, Option.getD, htn, hdm,
          signExtend_low16 (w % 65536) (by omega), shiftLeft_mul, htv]
        rw [or_of_disjoint (k := 24) (x := w / 16777216 * 2 ^ 24)
            (by omega) (by omega),
          or_of_disjoint (k := 16) (by omega) (by omega)]
    -- REG_UNARY
    · rename_i hty
      split at hdec
      · exact Except.noConfusion hdec
      · obtain rfl := Except.ok.inj hdec
        simp only [canonicalWord, he1, he2, he3, heq, hty,
          InstructionDecoder.encode, Option.getD, htn, hdm,
          shiftLeft_mul, htv]
        rw [or_of_disjoint (k := 24) (x := w / 16777216 * 2 ^ 24)
            (by omega) (by omega)]
    -- LOAD
    · rename_i hty
      split at hdec
      · exact Except.noConfusion hdec
      · split at hdec
        · exact Except.noConfusion hdec
        · rw [he4] at hdec
          obtain rfl := Except.ok.inj hdec
          simp only [canonicalWord, he1, he2, he3, he4, heq, hty,
            InstructionDecoder.encode, Option.getD, htn, hdm, hrm,
            shiftLeft_mul, htv]
          rw [or_of_disjoint (k := 24) (x := w / 16777216 * 2 ^ 24)
              (by omega) (by omega),
            or_of_disjoint (k := 16) (by omega) (by omega)]
    -- STORE
    · rename_i hty
      split at hdec
      · exact Except.noConfusion hdec
      · split at hdec
        · exact Except.noConfusion hdec
        · rw [he4] at hdec
          obtain rfl := Except.ok.inj hdec
          simp only [canonicalWord, he1, he2, he3, he4, heq, hty,
            InstructionDecoder.encode, Option.getD, htn, hdm, hrm,
            shiftLeft_mul, htv]
          rw [or_of_disjoint (k := 24) (x := w / 16777216 * 2 ^ 24)
              (by omega) (by omega),
            or_of_disjoint (k := 16) (by omega) (by omega)]
    -- JUMP
    · rename_i hty
      obtain rfl := Except.ok.inj hdec
      simp only [canonicalWord, he1, he2, he3, heq, hty,
        InstructionDecoder.encode, Option.getD, htn,
        and_maskFFFF, shiftLeft_mul, htv]
      rw [or_of_disjoint (k := 24) (x := w / 16777216 * 2 ^ 24)
          (by omega) (by omega)]
      omega

/-- C1 (amended): decoding the encoding is the identity on every
representable instruction of each operand-shape class, and encoding a
decoded word yields that word with the bits its class ignores cleared to
zero (hence the exact word whenever the ignored bits are zero, e.g. for
every encoder-produced word). -/
theorem decoder_roundtrip_amended :
    (∀ i : Instruction, i.wf = true →
      InstructionDecoder.decode (InstructionDecoder.encode i) = .ok i) ∧
    (∀ (w : Nat) (i : Instruction), w < 4294967296 →
      InstructionDecoder.decode w = .ok i →
      InstructionDecoder.encode i = canonicalWord w) :=
  ⟨decode_encode_of_wf, encode_decode_canonical⟩

/-- Counterexample for C1 as stated: the decoder accepts the word
0x00000001 (a NOP with junk in its unused operand bits), but re-encoding
the decoded instruction yields 0x00000000, not the original word. -/
theorem decoder_roundtrip_cex :
    InstructionDecoder.decode 1 =
        .ok ⟨.NOP, .NO_OPERANDS, none, none, none, none⟩ ∧
    InstructionDecoder.encode ⟨.NOP, .NO_OPERANDS, none, none, none, none⟩ = 0 ∧
    (0 : Nat) ≠ 1 :=
  ⟨rfl, rfl, by decide⟩

/-- Witness for C1 at a concrete representable instruction and a concrete
accepted word. -/
theorem decoder_roundtrip_amended_witness :
    (InstructionDecoder.decode (InstructionDecoder.encode
        ⟨.ADD_REG, .REG_REG, some 1, some 2, none, none⟩) =
      .ok ⟨.ADD_REG, .REG_REG, some 1, some 2, none, none⟩) ∧
    (InstructionDecoder.encode ⟨.NOP, .NO_OPERANDS, none, none, none, none⟩ =
      canonicalWord 1) :=
  ⟨decoder_roundtrip_amended.1 ⟨.ADD_REG, .REG_REG, some 1, some 2, none, none⟩
      (by decide),
    decoder_roundtrip_amended.2 1 ⟨.NOP, .NO_OPERANDS, none, none, none, none⟩
      (by norm_num) rfl⟩

/-! ## CPU lemmas -/

theorem setReg_cycle (t : CPUState) (f : Option Nat) (v : Nat) (s' : CPUState)
    (h : t.setReg f v = .ok s') : s'.cycleCount = t.cycleCount := by
  unfold CPUState.setReg needField at h
  split at h
  · exact Except.noConfusion h
  · split at h
    · exact Except.noConfusion h
    · obtain rfl := Except.ok.inj h
      rfl

theorem execBinReg_cycle (s : CPUState) (i : Instruction)
    (aluOp : Nat → Nat → Flags → Nat × Flags) :
    (CPU.execBinReg s i aluOp).1.cycleCount = s.cycleCount := by
  unfold CPU.execBinReg
  repeat' (first
    | split
    | (dsimp only
       split))
  all_goals try rfl
  all_goals (rename_i heq; exact (setReg_cycle _ _ _ _ heq).trans rfl)

theorem execBinImm_cycle (s : CPUState) (i : Instruction)
    (aluOp : Nat → Nat → Flags → Nat × Flags) :
    (CPU.execBinImm s i aluOp).1.cycleCount = s.cycleCount := by
  unfold CPU.execBinImm
  repeat' (first
    | split
    | (dsimp only
       split))
  all_goals try rfl
  all_goals (rename_i heq; exact (setReg_cycle _ _ _ _ heq).trans rfl)

theorem execMovReg_cycle (s : CPUState) (i : Instruction) :
    (CPU.execMovReg s i).1.cycleCount = s.cycleCount := by
  unfold CPU.execMovReg
  repeat' (first
    | split
    | (dsimp only
       split))
  all_goals try rfl
  all_goals (rename_i heq; exact (setReg_cycle _ _ _ _ heq).trans rfl)

theorem execMovImm_cycle (s : CPUState) (i : Instruction) :
    (CPU.execMovImm s i).1.cycleCount = s.cycleCount := by
  unfold CPU.execMovImm
  repeat' (first
    | split
    | (dsimp only
       split))
  all_goals try rfl
  all_goals (rename_i heq; exact (setReg_cycle _ _ _ _ heq).trans rfl)

theorem execLoad_cycle (s : CPUState) (i : Instruction) :
    (CPU.execLoad s i).1.cycleCount = s.cycleCount := by
  unfold CPU.execLoad
  repeat' (first
    | split
    | (dsimp only
       split))
  all_goals try rfl
  all_goals (rename_i heq; exact (setReg_cycle _ _ _ _ heq).trans rfl)

theorem execStore_cycle (s : CPUState) (i : Instruction) :
    (CPU.execStore s i).1.cycleCount = s.cycleCount := by
  unfold CPU.execStore
  repeat' (first
    | split
    | (dsimp only
       split))
  all_goals try rfl

theorem execDivReg_cycle (s : CPUState) (i : Instruction) :
    (CPU.execDivReg s i).1.cycleCount = s.cycleCount := by
  unfold CPU.execDivReg
  repeat' (first
    | split
    | (dsimp only
       split))
  all_goals try rfl
  all_goals (rename_i heq; exact (setReg_cycle _ _ _ _ heq).trans rfl)

theorem execDivImm_cycle (s : CPUState) (i : Instruction) :
    (CPU.execDivImm s i).1.cycleCount = s.cycleCount := by
  unfold CPU.execDivImm
  repeat' (first
    | split
    | (dsimp only
       split))
  all_goals try rfl
  all_goals (rename_i heq; exact (setReg_cycle _ _ _ _ heq).trans rfl)

theorem execNot_cycle (s : CPUState) (i : Instruction) :
    (CPU.execNot s i).1.cycleCount = s.cycleCount := by
  unfold CPU.execNot
  repeat' (first
    | split
    | (dsimp only
       split))
  all_goals try rfl
  all_goals (rename_i heq; exact (setReg_cycle _ _ _ _ heq).trans rfl)

theorem execCmpReg_cycle (s : CPUState) (i : Instruction) :
    (CPU.execCmpReg s i).1.cycleCount = s.cycleCount := by
  unfold CPU.execCmpReg
  repeat' (first
    | split
    | (dsimp only
       split))
  all_goals try rfl

theorem execCmpImm_cycle (s : CPUState) (i : Instruction) :
    (CPU.execCmpImm s i).1.cycleCount = s.cycleCount := by
  unfold CPU.execCmpImm
  repeat' (first
    | split
    | (dsimp only
       split))
  all_goals try rfl

theorem setPC_cycle (s : CPUState) (a : Option Nat) :
    (CPU.setPC s a).1.cycleCount = s.cycleCount := by
  unfold CPU.setPC
  split <;> rfl

theorem execJmp_cycle (s : CPUState) (i : Instruction) :
    (CPU.execJmp s i).1.cycleCount = s.cycleCount := setPC_cycle s i.address

theorem execJumpIf_cycle (s : CPUState) (i : Instruction) (c : Bool) :
    (CPU.execJumpIf s i c).1.cycleCount = s.cycleCount := by
  unfold CPU.execJumpIf
  split
  · exact setPC_cycle s i.address
  · rfl

/-- No instruction handler touches cycle_count; the CPU increments it
only in step() after a successful execute. -/
theorem executeInstruction_cycle (s : CPUState) (i : Instruction) :
    (CPU.executeInstruction s i).1.cycleCount = s.cycleCount := by
  unfold CPU.executeInstruction
  split
  all_goals first
    | rfl
    | exact execBinReg_cycle _ _ _
    | exact execBinImm_cycle _ _ _
    | exact execMovReg_cycle _ _
    | exact execMovImm_cycle _ _
    | exact execLoad_cycle _ _
    | exact execStore_cycle _ _
    | exact execDivReg_cycle _ _
    | exact execDivImm_cycle _ _
    | exact execNot_cycle _ _
    | exact execCmpReg_cycle _ _
    | exact execCmpImm_cycle _ _
    | exact execJmp_cycle _ _
    | exact execJumpIf_cycle _ _ _

/-- C4: step() is a no-op when halted; when any stage fails, the error is
surfaced to the caller with running set to false and cycle_count exactly
as before (it is incremented only after a successful execute); a
successful non-halted step increments cycle_count by one. -/
theorem step_error_semantics (s s' : CPUState) (e : Err) :
    (s.halted = true → CPU.step s = (s, none)) ∧
    (CPU.step s = (s', some e) →
      s'.running = false ∧ s'.cycleCount = s.cycleCount) ∧
    (CPU.step s = (s', none) →
      s.halted = true ∨ s'.cycleCount = s.cycleCount + 1) := by
  refine ⟨?_, ?_, ?_⟩
  · intro hh
    unfold CPU.step
    rw [if_pos hh]
  · intro hstep
    unfold CPU.step at hstep
    split at hstep
    · exact absurd (congrArg Prod.snd hstep) (by simp)
    · rename_i hh
      split at hstep
      · obtain ⟨h1, h2⟩ := Prod.mk.inj (hstep.symm)
        subst h1
        exact ⟨rfl, rfl⟩
      · rename_i w s1 hfetch
        have hcyc1 : s1.cycleCount = s.cycleCount := by
          unfold CPU.fetchInstruction at hfetch
          dsimp only at hfetch
          split at hfetch
          · exact Except.noConfusion hfetch
          · obtain rfl := (Prod.mk.inj (Except.ok.inj hfetch)).2
            rfl
        split at hstep
        · obtain ⟨h1, h2⟩ := Prod.mk.inj (hstep.symm)
          subst h1
          exact ⟨rfl, hcyc1⟩
        · rename_i instr hdec
          split at hstep
          · rename_i s2 e2 hexec
            obtain ⟨h1, h2⟩ := Prod.mk.inj (hstep.symm)
            subst h1
            refine ⟨rfl, ?_⟩
            have hec := executeInstruction_cycle s1 instr
            rw [hexec] at hec
            have hec2 : s2.cycleCount = s1.cycleCount := hec
            exact hec2.trans hcyc1
          · exact absurd (congrArg Prod.snd hstep) (by simp)
  · intro hstep
    unfold CPU.step at hstep
    split at hstep
    · rename_i hh
      exact Or.inl hh
    · rename_i hh
      right
      split at hstep
      · exact absurd (congrArg Prod.snd hstep) (by simp)
      · rename_i w s1 hfetch
        have hcyc1 : s1.cycleCount = s.cycleCount := by
          unfold CPU.fetchInstruction at hfetch
          dsimp only at hfetch
          split at hfetch
          · exact Except.noConfusion hfetch
          · obtain rfl := (Prod.mk.inj (Except.ok.inj hfetch)).2
            rfl
        split at hstep
        · exact absurd (congrArg Prod.snd hstep) (by simp)
        · rename_i instr hdec
          split at hstep
          · exact absurd (congrArg Prod.snd hstep) (by simp)
          · rename_i s2 hexec
            obtain ⟨h1, h2⟩ := Prod.mk.inj (hstep.symm)
            subst h1
            have hec := executeInstruction_cycle s1 instr
            rw [hexec] at hec
            have hec2 : s2.cycleCount = s1.cycleCount := hec
            show s2.cycleCount + 1 = s.cycleCount + 1
            omega

/-- Witness for C4: a halted CPU steps to itself; a CPU with empty memory
fails its fetch (running stays false, cycle_count unchanged); a CPU with
a NOP at address 0 completes a step and counts one cycle. -/
theorem step_error_semantics_witness :
    (CPU.step { CPU.init 0 0 with halted := true } =
        ({ CPU.init 0 0 with halted := true }, none)) ∧
    ((CPU.init 0 0).running = false ∧
      (CPU.init 0 0).cycleCount = (CPU.init 0 0).cycleCount) ∧
    ((CPU.init 8 0).halted = true ∨
      ((CPU.step (CPU.init 8 0)).1).cycleCount = (CPU.init 8 0).cycleCount + 1) :=
  ⟨(step_error_semantics { CPU.init 0 0 with halted := true }
      (CPU.init 0 0) .invalidInstruction).1 rfl,
    (step_error_semantics (CPU.init 0 0) (CPU.init 0 0) .invalidInstruction).2.1
      (by decide),
    (step_error_semantics (CPU.init 8 0) ((CPU.step (CPU.init 8 0)).1)
      .invalidInstruction).2.2 rfl⟩

end CpuEmu
